import Mathlib

/-!
Shallow embedding of the unityab asset reader (stream.py, serialize.py,
unity.py) and proofs about its claims.  Bytes are modelled as `Nat`
(values `< 256` in every real stream), Python `int` as `Int`, Python
`str` as its list of UTF-8 byte values, and fallible code as `Option`.
-/

/-- Little-endian value of a byte list, least significant byte first. -/
def leVal : List Nat → Nat
  | [] => 0
  | b :: rest => b % 256 + 256 * leVal rest

/-- Value of a byte list under an endian choice: `big = true` models the
struct format char used by the source when `endian` is the greater-than
sign, `big = false` the less-than sign. -/
def endianVal (big : Bool) (bs : List Nat) : Nat :=
  if big then leVal bs.reverse else leVal bs

/-- Two's-complement reading of an unsigned value with the given bit width,
as done by struct.unpack for the signed format characters. -/
def toSigned (bits : Nat) (u : Nat) : Int :=
  if u % 2 ^ bits < 2 ^ (bits - 1) then ((u % 2 ^ bits : Nat) : Int)
  else ((u % 2 ^ bits : Nat) : Int) - 2 ^ bits

/-- A UTF-8 continuation byte. -/
def utf8Cont (b : Nat) : Bool := 0x80 ≤ b && b ≤ 0xBF

/-- Strict UTF-8 validity of a byte list, as enforced by the str.decode
calls of the source (rejecting overlong forms and surrogates). -/
def utf8ValidB : List Nat → Bool
  | [] => true
  | b :: rest =>
    if b ≤ 0x7F then utf8ValidB rest
    else if 0xC2 ≤ b && b ≤ 0xDF then
      match rest with
      | c1 :: r => utf8Cont c1 && utf8ValidB r
      | [] => false
    else if b = 0xE0 then
      match rest with
      | c1 :: c2 :: r => (0xA0 ≤ c1 && c1 ≤ 0xBF) && utf8Cont c2 && utf8ValidB r
      | _ => false
    else if (0xE1 ≤ b && b ≤ 0xEC) || b = 0xEE || b = 0xEF then
      match rest with
      | c1 :: c2 :: r => utf8Cont c1 && utf8Cont c2 && utf8ValidB r
      | _ => false
    else if b = 0xED then
      match rest with
      | c1 :: c2 :: r => (0x80 ≤ c1 && c1 ≤ 0x9F) && utf8Cont c2 && utf8ValidB r
      | _ => false
    else if b = 0xF0 then
      match rest with
      | c1 :: c2 :: c3 :: r => (0x90 ≤ c1 && c1 ≤ 0xBF) && utf8Cont c2 && utf8Cont c3 && utf8ValidB r
      | _ => false
    else if 0xF1 ≤ b && b ≤ 0xF3 then
      match rest with
      | c1 :: c2 :: c3 :: r => utf8Cont c1 && utf8Cont c2 && utf8Cont c3 && utf8ValidB r
      | _ => false
    else if b = 0xF4 then
      match rest with
      | c1 :: c2 :: c3 :: r => (0x80 ≤ c1 && c1 ≤ 0x8F) && utf8Cont c2 && utf8Cont c3 && utf8ValidB r
      | _ => false
    else false

/-- Bytes of a null-terminated string: the content before the first zero
byte, or `none` when the data ends before a zero byte is found. -/
def takeCString : List Nat → Option (List Nat)
  | [] => none
  | b :: rest => if b = 0 then some [] else (takeCString rest).map (b :: ·)

/-- Python-style list indexing: negative indices count from the end,
out-of-range indexing is an IndexError, modelled as `none`. -/
def pyGet {α : Type} (xs : List α) (i : Int) : Option α :=
  if 0 ≤ i then xs.get? i.toNat
  else if (xs.length : Int) + i < 0 then none
  else xs.get? ((xs.length : Int) + i).toNat

/-- The state of stream.py's FileStream over an in-memory buffer:
the buffer contents, cursor, endian setting (`true` models the
greater-than struct prefix, the constructor's default), and the
read-limit bookkeeping of lock/unlock. -/
structure FileStream where
  data : List Nat
  pos : Nat
  endian : Bool
  read_limit : Nat
  read_count : Nat
deriving Repr, DecidableEq

/-- FileStream.__init__ over in-memory data: position 0 and the default
big endian setting. -/
def FileStream.mkNew (data : List Nat) : FileStream :=
  { data := data, pos := 0, endian := true, read_limit := 0, read_count := 0 }

/-- FileStream.read: increments the read counter, raises when the read
limit is armed and reached, then returns whatever the buffer yields —
raising only when that is empty.  Note it does NOT check that all n
bytes were obtained. -/
def FileStream.read (fs : FileStream) (n : Nat) : Option (List Nat × FileStream) :=
  let cnt := fs.read_count + n
  if 0 < fs.read_limit ∧ fs.read_limit ≤ cnt then none
  else
    let chunk := (fs.data.drop fs.pos).take n
    if chunk.isEmpty then none
    else some (chunk, { fs with pos := fs.pos + chunk.length, read_count := cnt })

/-- FileStream.seek with SEEK_SET. -/
def FileStream.seek (fs : FileStream) (offset : Nat) : FileStream :=
  { fs with pos := offset }

/-- FileStream.align: advance to the next multiple of size when not
already on one. -/
def FileStream.align (fs : FileStream) (size : Nat := 4) : FileStream :=
  let mode := fs.pos % size
  if 0 < mode then { fs with pos := fs.pos + (size - mode) } else fs

/-- FileStream.read_boolean: unpacks one byte straight off the buffer
(bypassing the counted read), nonzero mapping to true. -/
def FileStream.read_boolean (fs : FileStream) : Option (Bool × FileStream) :=
  match (fs.data.drop fs.pos).take 1 with
  | [b] => some (b != 0, { fs with pos := fs.pos + 1 })
  | _ => none

/-- FileStream.read_sint8: one byte straight off the buffer, signed. -/
def FileStream.read_sint8 (fs : FileStream) : Option (Int × FileStream) :=
  match (fs.data.drop fs.pos).take 1 with
  | [b] => some (toSigned 8 b, { fs with pos := fs.pos + 1 })
  | _ => none

/-- FileStream.read_uint8: a counted one-byte read, first byte returned. -/
def FileStream.read_uint8 (fs : FileStream) : Option (Nat × FileStream) :=
  match fs.read 1 with
  | some (b :: _, fs') => some (b, fs')
  | _ => none

/-- FileStream.read_ushort: a counted two-byte read; struct.unpack raises
unless exactly two bytes arrived. -/
def FileStream.read_ushort (fs : FileStream) : Option (Nat × FileStream) :=
  match fs.read 2 with
  | some (bs, fs') => if bs.length = 2 then some (endianVal fs.endian bs, fs') else none
  | none => none

/-- FileStream.read_short. -/
def FileStream.read_short (fs : FileStream) : Option (Int × FileStream) :=
  match fs.read 2 with
  | some (bs, fs') => if bs.length = 2 then some (toSigned 16 (endianVal fs.endian bs), fs') else none
  | none => none

/-- FileStream.read_sint16 delegates to read_short. -/
def FileStream.read_sint16 (fs : FileStream) : Option (Int × FileStream) :=
  fs.read_short

/-- FileStream.read_uint16 delegates to read_ushort. -/
def FileStream.read_uint16 (fs : FileStream) : Option (Nat × FileStream) :=
  fs.read_ushort

/-- FileStream.read_uint32. -/
def FileStream.read_uint32 (fs : FileStream) : Option (Nat × FileStream) :=
  match fs.read 4 with
  | some (bs, fs') => if bs.length = 4 then some (endianVal fs.endian bs, fs') else none
  | none => none

/-- FileStream.read_sint32. -/
def FileStream.read_sint32 (fs : FileStream) : Option (Int × FileStream) :=
  match fs.read 4 with
  | some (bs, fs') => if bs.length = 4 then some (toSigned 32 (endianVal fs.endian bs), fs') else none
  | none => none

/-- FileStream.read_uint64. -/
def FileStream.read_uint64 (fs : FileStream) : Option (Nat × FileStream) :=
  match fs.read 8 with
  | some (bs, fs') => if bs.length = 8 then some (endianVal fs.endian bs, fs') else none
  | none => none

/-- FileStream.read_sint64. -/
def FileStream.read_sint64 (fs : FileStream) : Option (Int × FileStream) :=
  match fs.read 8 with
  | some (bs, fs') => if bs.length = 8 then some (toSigned 64 (endianVal fs.endian bs), fs') else none
  | none => none

/-- FileStream.read_float: the f32 value is carried as its 32-bit
pattern, which determines the float read by struct.unpack. -/
def FileStream.read_float (fs : FileStream) : Option (Nat × FileStream) :=
  match fs.read 4 with
  | some (bs, fs') => if bs.length = 4 then some (endianVal fs.endian bs, fs') else none
  | none => none

/-- FileStream.read_double: the f64 value carried as its 64-bit pattern. -/
def FileStream.read_double (fs : FileStream) : Option (Nat × FileStream) :=
  match fs.read 8 with
  | some (bs, fs') => if bs.length = 8 then some (endianVal fs.endian bs, fs') else none
  | none => none

/-- FileStream.read_string with the default zero length: the byte loop
reads counted one-byte reads up to the terminator and then UTF-8
decodes; the decoded text is modelled by its byte list (the source maps
the empty string to None, conflated here with the empty list, which no
claim distinguishes). -/
def FileStream.read_string (fs : FileStream) : Option (List Nat × FileStream) :=
  match takeCString (fs.data.drop fs.pos) with
  | none => none
  | some s =>
    if 0 < fs.read_limit ∧ fs.read_limit ≤ fs.read_count + (s.length + 1) then none
    else if utf8ValidB s then
      some (s, { fs with pos := fs.pos + (s.length + 1),
                         read_count := fs.read_count + (s.length + 1) })
    else none

/-! Type-name byte lists (ASCII) used by serialize.py. -/

/-- The characters of bool. -/
def str_bool : List Nat := [98, 111, 111, 108]

/-- The characters of SInt8. -/
def str_SInt8 : List Nat := [83, 73, 110, 116, 56]

/-- The characters of UInt8. -/
def str_UInt8 : List Nat := [85, 73, 110, 116, 56]

/-- The characters of char. -/
def str_char : List Nat := [99, 104, 97, 114]

/-- The characters of SInt16. -/
def str_SInt16 : List Nat := [83, 73, 110, 116, 49, 54]

/-- The characters of UInt16. -/
def str_UInt16 : List Nat := [85, 73, 110, 116, 49, 54]

/-- The characters of short. -/
def str_short : List Nat := [115, 104, 111, 114, 116]

/-- The characters of unsigned short (with a space). -/
def str_unsigned_short : List Nat := [117, 110, 115, 105, 103, 110, 101, 100, 32, 115, 104, 111, 114, 116]

/-- The characters of SInt32. -/
def str_SInt32 : List Nat := [83, 73, 110, 116, 51, 50]

/-- The characters of UInt32. -/
def str_UInt32 : List Nat := [85, 73, 110, 116, 51, 50]

/-- The characters of int. -/
def str_int : List Nat := [105, 110, 116]

/-- The characters of unsigned int (with a space). -/
def str_unsigned_int : List Nat := [117, 110, 115, 105, 103, 110, 101, 100, 32, 105, 110, 116]

/-- The characters of SInt64. -/
def str_SInt64 : List Nat := [83, 73, 110, 116, 54, 52]

/-- The characters of UInt64. -/
def str_UInt64 : List Nat := [85, 73, 110, 116, 54, 52]

/-- The characters of long. -/
def str_long : List Nat := [108, 111, 110, 103]

/-- The characters of unsigned long (with a space). -/
def str_unsigned_long : List Nat := [117, 110, 115, 105, 103, 110, 101, 100, 32, 108, 111, 110, 103]

/-- The characters of float. -/
def str_float : List Nat := [102, 108, 111, 97, 116]

/-- The characters of double. -/
def str_double : List Nat := [100, 111, 117, 98, 108, 101]

/-- The characters of the pointer type name, Type followed by an asterisk. -/
def str_Type_ptr : List Nat := [84, 121, 112, 101, 42]

/-- The characters of string. -/
def str_string : List Nat := [115, 116, 114, 105, 110, 103]

/-- The characters of size. -/
def str_size : List Nat := [115, 105, 122, 101]

/-- The characters of data. -/
def str_data : List Nat := [100, 97, 116, 97]

/-- The characters of UnityFS. -/
def str_UnityFS : List Nat := [85, 110, 105, 116, 121, 70, 83]

/-- serialize.MONO_BEHAVIOUR_PERSISTENT_ID. -/
def MONO_BEHAVIOUR_PERSISTENT_ID : Int := 114

/-- One line of a type tree (serialize.TypeField), with the resolved
name and type strings carried as byte lists. -/
structure TypeField where
  version : Int := 0
  level : Nat := 0
  is_array : Bool := false
  type : List Nat := []
  type_str_offset : Nat := 0
  name : List Nat := []
  name_str_offset : Nat := 0
  byte_size : Int := 0
  index : Int := -1
  meta_flags : Nat := 0
deriving Repr, DecidableEq

/-- serialize.MetadataType: a class view (name, owner index, direct
children); the back-pointer to the owning tree is passed separately
where needed. -/
structure MetadataType where
  name : List Nat
  index : Int
  fields : List TypeField
deriving Repr, DecidableEq

/-- serialize.MetadataTypeTree state after decoding. -/
structure MetadataTypeTree where
  persistent_type_id : Int := -1
  is_stripped_type : Bool := false
  script_type_index : Int := -1
  script_type_hash : List Nat := []
  type_hash : List Nat := []
  nodes : List TypeField := []
  strings : List (Nat × List Nat) := []
  type_tree_enabled : Bool := false
  type_dict : List (Int × MetadataType) := []
  name : List Nat := []
deriving Repr, DecidableEq

/-- TypeField.decode: 24 bytes of node data read with the stream's
endian. -/
def TypeField.decode (fs : FileStream) : Option (TypeField × FileStream) :=
  match fs.read_sint16 with
  | none => none
  | some (version, fs) =>
  match fs.read_uint8 with
  | none => none
  | some (level, fs) =>
  match fs.read_boolean with
  | none => none
  | some (is_array, fs) =>
  match fs.read_uint32 with
  | none => none
  | some (type_str_offset, fs) =>
  match fs.read_uint32 with
  | none => none
  | some (name_str_offset, fs) =>
  match fs.read_sint32 with
  | none => none
  | some (byte_size, fs) =>
  match fs.read_sint32 with
  | none => none
  | some (index, fs) =>
  match fs.read_uint32 with
  | none => none
  | some (meta_flags, fs) =>
    some ({ version := version, level := level, is_array := is_array,
            type_str_offset := type_str_offset, name_str_offset := name_str_offset,
            byte_size := byte_size, index := index, meta_flags := meta_flags }, fs)

/-- Modelled from the spec: the built-in interned string table of the
repository's strings module (not under src/).  The spec names its
contents (engine primitive-type names) but fixes no numeric keys, and
no claim settled here consults it, so it is modelled as the empty
table. -/
def builtin_strings (_offset : Nat) : Option (List Nat) :=
  none

/-- Modelled from the spec: strings.get_caculate_string (the strings
module is not under src/).  An offset with the high bit set selects the
static built-in table keyed by the remaining bits; otherwise the
per-tree string region read alongside the type tree is consulted. -/
def get_caculate_string (offset : Nat) (strings : List (Nat × List Nat)) : Option (List Nat) :=
  if offset &&& 0x80000000 ≠ 0 then builtin_strings (offset &&& 0x7FFFFFFF)
  else (strings.find? (fun p => p.1 == offset)).map (·.2)

/-- The node loop of MetadataTypeTree.__decode_type_tree: decode
node_count TypeFields, asserting from the second node on that the index
equals the running counter plus one.  The counter starts at -1, so the
first node's index is NOT checked. -/
def MetadataTypeTree.decode_nodes : Nat → Int → List TypeField → FileStream → Option (List TypeField × FileStream)
  | 0, _, acc, fs => some (acc, fs)
  | Nat.succ n, type_index, acc, fs =>
    match TypeField.decode fs with
    | none => none
    | some (node, fs') =>
      if 0 ≤ type_index then
        if node.index = type_index + 1 then
          MetadataTypeTree.decode_nodes n (type_index + 1) (acc ++ [node]) fs'
        else none
      else MetadataTypeTree.decode_nodes n (type_index + 1) (acc ++ [node]) fs'

/-- The while loop of the intern-string region: keep reading
null-terminated strings while the bytes consumed so far plus one are
less than char_count, recording each at its byte offset from the region
start.  The fuel argument (instantiated with char_count) dominates the
iteration count because every string consumes at least one byte. -/
def MetadataTypeTree.read_intern_strings :
    Nat → FileStream → Nat → Nat → Nat → List (Nat × List Nat) →
    Option (List (Nat × List Nat) × FileStream)
  | 0, fs, _, string_size, char_count, strings =>
    if string_size + 1 < char_count then none else some (strings, fs)
  | Nat.succ fuel, fs, string_offset, string_size, char_count, strings =>
    if string_size + 1 < char_count then
      match fs.read_string with
      | none => none
      | some (s, fs') =>
        MetadataTypeTree.read_intern_strings fuel fs' string_offset
          (string_size + (fs'.pos - fs.pos)) char_count
          (strings ++ [(fs.pos - string_offset, s)])
    else some (strings, fs)

/-- The char_count-guarded string phase of __decode_type_tree: when
char_count is positive, run the intern-string loop and then assert that
exactly char_count bytes were consumed. -/
def MetadataTypeTree.intern_strings_phase (char_count : Nat) (fs : FileStream) :
    Option (List (Nat × List Nat) × FileStream) :=
  if 0 < char_count then
    match MetadataTypeTree.read_intern_strings char_count fs fs.pos 0 char_count [] with
    | none => none
    | some (strings, fs') =>
      if fs'.pos - fs.pos = char_count then some (strings, fs') else none
  else some ([], fs)

/-- The resolution pass of __decode_type_tree: each node's name and type
are looked up through get_caculate_string. -/
def MetadataTypeTree.resolve_nodes : List TypeField → List (Nat × List Nat) → Option (List TypeField)
  | [], _ => some []
  | n :: rest, strings =>
    match get_caculate_string n.name_str_offset strings,
          get_caculate_string n.type_str_offset strings,
          MetadataTypeTree.resolve_nodes rest strings with
    | some nm, some ty, some r => some ({ n with name := nm, type := ty } :: r)
    | _, _, _ => none

/-- MetadataTypeTree.__decode_type_tree: node count and char count, the
node loop, the intern-string phase, resolution, and the root type name
(an IndexError when there are no nodes). -/
def MetadataTypeTree.decode_type_tree (t : MetadataTypeTree) (fs : FileStream) :
    Option (MetadataTypeTree × FileStream) :=
  match fs.read_uint32 with
  | none => none
  | some (node_count, fs) =>
  match fs.read_uint32 with
  | none => none
  | some (char_count, fs) =>
  match MetadataTypeTree.decode_nodes node_count (-1) [] fs with
  | none => none
  | some (nodes, fs) =>
  match MetadataTypeTree.intern_strings_phase char_count fs with
  | none => none
  | some (strings, fs) =>
  match MetadataTypeTree.resolve_nodes nodes strings with
  | none => none
  | some nodes' =>
  match pyGet nodes' 0 with
  | none => none
  | some n0 =>
    some ({ t with nodes := nodes', strings := strings, name := n0.type }, fs)

/-- The header part of MetadataTypeTree.decode: persistent type id, the
stripped flag, the script type index, the 16-byte script type hash read
only for persistent id 114, then the 16-byte type hash. -/
def MetadataTypeTree.decode_header (type_tree_enabled : Bool) (fs : FileStream) :
    Option (MetadataTypeTree × FileStream) :=
  match fs.read_sint32 with
  | none => none
  | some (persistent_type_id, fs) =>
  match fs.read_boolean with
  | none => none
  | some (is_stripped_type, fs) =>
  match fs.read_sint16 with
  | none => none
  | some (script_type_index, fs) =>
  match (if persistent_type_id = MONO_BEHAVIOUR_PERSISTENT_ID then fs.read 16
         else some (([] : List Nat), fs)) with
  | none => none
  | some (script_type_hash, fs) =>
  match fs.read 16 with
  | none => none
  | some (type_hash, fs) =>
    some ({ persistent_type_id := persistent_type_id,
            is_stripped_type := is_stripped_type,
            script_type_index := script_type_index,
            script_type_hash := script_type_hash,
            type_hash := type_hash,
            nodes := [], strings := [],
            type_tree_enabled := type_tree_enabled }, fs)

/-- MetadataTypeTree.decode: the header, then the inline body when the
type tree is enabled.  The disabled path consults an external cache
file on disk; it is modelled as that file being absent, leaving the
tree nodeless. -/
def MetadataTypeTree.decode (type_tree_enabled : Bool) (fs : FileStream) :
    Option (MetadataTypeTree × FileStream) :=
  match MetadataTypeTree.decode_header type_tree_enabled fs with
  | none => none
  | some (t, fs) =>
    if type_tree_enabled then t.decode_type_tree fs
    else some (t, fs)

/-! The type-tree registrar of SerializedFile.register_type_tree.  The
walker stack is held with its top at the head of the list (the Python
list's end), and the class map is an association list whose most recent
insertion stands first. -/

/-- One walker frame: the parent field with the direct children
collected so far. -/
abbrev RegFrame := TypeField × List TypeField

/-- The class map type_dict, keyed by owner field index. -/
abbrev RegDict := List (Int × MetadataType)

/-- Insert a materialized MetadataType for a popped frame. -/
def regInsert (t : TypeField) (fields : List TypeField) (d : RegDict) : RegDict :=
  (t.index, { name := t.type, index := t.index, fields := fields }) :: d

/-- The pop-and-materialize loop body run cursor.level - node.level
times; popping an empty walker is an IndexError. -/
def pop_insert : Nat → List RegFrame → RegDict → Option (List RegFrame × RegDict)
  | 0, walker, d => some (walker, d)
  | Nat.succ _, [], _ => none
  | Nat.succ k, (t, fields) :: ws, d => pop_insert k ws (regInsert t fields d)

/-- The final drain of the walker after the field loop. -/
def drain_walker : List RegFrame → RegDict → RegDict
  | [], d => d
  | (t, fields) :: ws, d => drain_walker ws (regInsert t fields d)

/-- The field loop of register_type_tree, carrying the cursor (previous
node) and the walker stack; reading the top of an empty walker is an
IndexError, modelled as `none`. -/
def register_loop : List TypeField → Option TypeField → List RegFrame → RegDict → Option RegDict
  | [], _, walker, d => some (drain_walker walker d)
  | node :: rest, none, walker, d => register_loop rest (some node) walker d
  | node :: rest, some cursor, walker, d =>
    if cursor.level = node.level then
      match walker with
      | [] => none
      | (p, fields) :: ws => register_loop rest (some node) ((p, fields ++ [node]) :: ws) d
    else if cursor.level < node.level then
      register_loop rest (some node) ((cursor, [node]) :: walker) d
    else
      match pop_insert (cursor.level - node.level) walker d with
      | none => none
      | some (walker', d') =>
        match walker' with
        | [] => none
        | (p, fields) :: ws => register_loop rest (some node) ((p, fields ++ [node]) :: ws) d'

/-- SerializedFile.register_type_tree on the node list of a tree,
returning the type_dict it builds (an uncaught IndexError is `none`). -/
def register_type_tree (nodes : List TypeField) : Option RegDict :=
  register_loop nodes none [] []

/-- Whether the class map holds an entry for a key. -/
def hasKey (d : RegDict) (k : Int) : Bool :=
  d.any (fun p => p.1 == k)

/-- Python dict get on the class map: the most recent binding of the
key, `none` when absent. -/
def dictGet (d : RegDict) (k : Int) : Option MetadataType :=
  (d.find? (fun p => p.1 == k)).map (·.2)

/-- Indices of the non-leaf fields of a flat pre-order field list: those
immediately followed by a deeper field. -/
def nonLeafIdx : List TypeField → List Int
  | a :: b :: r => if a.level < b.level then a.index :: nonLeafIdx (b :: r) else nonLeafIdx (b :: r)
  | _ => []

/-- Each field's level exceeds its predecessor's by at most one. -/
def chainOK : List TypeField → Bool
  | a :: b :: r => decide (b.level ≤ a.level + 1) && chainOK (b :: r)
  | _ => true

/-! The generic deserializer of SerializedFile.deserialize. -/

/-- A decoded Python value: a bool, an int, a float or double carried as
its bit pattern, a bytes object, a list, or a dict with byte-list keys
in insertion order. -/
inductive Value where
  | vBool : Bool → Value
  | vInt : Int → Value
  | vF32 : Nat → Value
  | vF64 : Nat → Value
  | vBytes : List Nat → Value
  | vList : List Value → Value
  | vObject : List (List Nat × Value) → Value
deriving Repr

/-- A result dict: keys in insertion order. -/
abbrev PyDict := List (List Nat × Value)

/-- Python dict assignment: replace in place when the key exists,
append otherwise. -/
def dictSet (d : PyDict) (k : List Nat) (v : Value) : PyDict :=
  if d.any (fun p => p.1 == k) then d.map (fun p => if p.1 == k then (k, v) else p)
  else d ++ [(k, v)]

/-- The __premitive_decoders table of SerializedFile (the source's
spelling), keyed by type-name byte list, in the source's order. -/
def premitive_decoders (t : List Nat) : Option (FileStream → Option (Value × FileStream)) :=
  if t = str_bool then some (fun fs => (fs.read_boolean).map (fun p => (Value.vBool p.1, p.2)))
  else if t = str_SInt8 then some (fun fs => (fs.read_sint8).map (fun p => (Value.vInt p.1, p.2)))
  else if t = str_UInt8 then some (fun fs => (fs.read_uint8).map (fun p => (Value.vInt p.1, p.2)))
  else if t = str_char then some (fun fs => (fs.read_uint8).map (fun p => (Value.vInt p.1, p.2)))
  else if t = str_SInt16 then some (fun fs => (fs.read_sint16).map (fun p => (Value.vInt p.1, p.2)))
  else if t = str_UInt16 then some (fun fs => (fs.read_uint16).map (fun p => (Value.vInt p.1, p.2)))
  else if t = str_short then some (fun fs => (fs.read_short).map (fun p => (Value.vInt p.1, p.2)))
  else if t = str_unsigned_short then some (fun fs => (fs.read_uint16).map (fun p => (Value.vInt p.1, p.2)))
  else if t = str_SInt32 then some (fun fs => (fs.read_sint32).map (fun p => (Value.vInt p.1, p.2)))
  else if t = str_UInt32 then some (fun fs => (fs.read_uint32).map (fun p => (Value.vInt p.1, p.2)))
  else if t = str_int then some (fun fs => (fs.read_sint32).map (fun p => (Value.vInt p.1, p.2)))
  else if t = str_unsigned_int then some (fun fs => (fs.read_uint32).map (fun p => (Value.vInt p.1, p.2)))
  else if t = str_SInt64 then some (fun fs => (fs.read_sint64).map (fun p => (Value.vInt p.1, p.2)))
  else if t = str_UInt64 then some (fun fs => (fs.read_uint64).map (fun p => (Value.vInt p.1, p.2)))
  else if t = str_long then some (fun fs => (fs.read_sint64).map (fun p => (Value.vInt p.1, p.2)))
  else if t = str_unsigned_long then some (fun fs => (fs.read_uint64).map (fun p => (Value.vInt p.1, p.2)))
  else if t = str_float then some (fun fs => (fs.read_float).map (fun p => (Value.vF32 p.1, p.2)))
  else if t = str_double then some (fun fs => (fs.read_double).map (fun p => (Value.vF64 p.1, p.2)))
  else if t = str_Type_ptr then some (fun fs => (fs.read_uint32).map (fun p => (Value.vInt p.1, p.2)))
  else none

/-- The deserializer's view of the owning tree: its flat node list and
its class map (both reached through meta_type.type_tree in the
source). -/
structure DeserCtx where
  nodes : List TypeField
  type_dict : RegDict
deriving Repr

/-- The primitive-element loop of an array field: count scalar reads. -/
def deser_prim_elems (dec : FileStream → Option (Value × FileStream)) :
    Nat → FileStream → Option (List Value × FileStream)
  | 0, fs => some ([], fs)
  | Nat.succ c, fs =>
    match dec fs with
    | none => none
    | some (v, fs') =>
      match deser_prim_elems dec c fs' with
      | none => none
      | some (vs, fs'') => some (v :: vs, fs'')

/-- The string-element loop of an array field: a signed length, the raw
bytes when positive (the empty bytes otherwise), then align(4) after
each element. -/
def deser_str_elems : Nat → FileStream → Option (List Value × FileStream)
  | 0, fs => some ([], fs)
  | Nat.succ c, fs =>
    match fs.read_sint32 with
    | none => none
    | some (size, fs) =>
      match (if 0 < size then fs.read size.toNat else some (([] : List Nat), fs)) with
      | none => none
      | some (data, fs) =>
        match deser_str_elems c (fs.align 4) with
        | none => none
        | some (vs, fs') => some (Value.vBytes data :: vs, fs')

/-- The composite-element loop of an array field: the class-map lookup
happens inside the loop, so a missing element class only fails when at
least one element is read.  `dm` is the recursive deserialize at the
current fuel. -/
def deser_elems_go (dm : MetadataType → FileStream → Option (PyDict × FileStream))
    (emt : Option MetadataType) :
    Nat → FileStream → Option (List Value × FileStream)
  | 0, fs => some ([], fs)
  | Nat.succ c, fs =>
    match emt with
    | none => none
    | some mt =>
      match dm mt fs with
      | none => none
      | some (d, fs') =>
        match deser_elems_go dm emt c fs' with
        | none => none
        | some (vs, fs'') => some (Value.vObject d :: vs, fs'')

/-- One field step of SerializedFile.deserialize, with `dm` the
recursive deserialize used for composite fields and elements. -/
def deser_field_go (dm : MetadataType → FileStream → Option (PyDict × FileStream))
    (ctx : DeserCtx) (node : TypeField) (fs : FileStream) (result : PyDict) :
    Option (PyDict × FileStream) :=
  if node.is_array then
    match pyGet ctx.nodes (node.index + 2) with
    | none => none
    | some element_type =>
      match fs.read_sint32 with
      | none => none
      | some (element_count, fs) =>
        if element_count = 0 then
          some (dictSet result node.name (Value.vObject [(str_size, Value.vInt element_count)]), fs)
        else if element_type.byte_size = 1 then
          match (if 0 < element_count then fs.read element_count.toNat
                 else some (([] : List Nat), fs)) with
          | none => none
          | some (data, fs) =>
            some (dictSet result node.name
                    (Value.vObject [(str_size, Value.vInt element_count),
                                    (str_data, Value.vBytes data)]),
                  fs.align 4)
        else
          match (match premitive_decoders element_type.type with
                 | some dec => deser_prim_elems dec element_count.toNat fs
                 | none =>
                   if element_type.type = str_string then
                     deser_str_elems element_count.toNat fs
                   else
                     deser_elems_go dm (dictGet ctx.type_dict element_type.index)
                       element_count.toNat fs) with
          | none => none
          | some (items, fs) =>
            some (dictSet result node.name
                    (Value.vObject [(str_size, Value.vInt element_count),
                                    (str_data, Value.vList items)]),
                  fs.align 4)
  else if node.type = str_string then
    match fs.read_sint32 with
    | none => none
    | some (size, fs) =>
      match (if 0 < size then fs.read size.toNat else some (([] : List Nat), fs)) with
      | none => none
      | some (data, fs) =>
        some (dictSet result node.name (Value.vBytes data), fs.align 4)
  else
    match premitive_decoders node.type with
    | some dec =>
      match dec fs with
      | none => none
      | some (v, fs) =>
        some (dictSet result node.name v,
              if node.meta_flags &&& 0x4000 ≠ 0 then fs.align 4 else fs)
    | none =>
      if node.byte_size = 0 then some (result, fs)
      else
        match dictGet ctx.type_dict node.index with
        | none => none
        | some mt =>
          match dm mt fs with
          | none => none
          | some (d, fs) => some (dictSet result node.name (Value.vObject d), fs)

/-- The field loop of SerializedFile.deserialize. -/
def deser_fields_go (dm : MetadataType → FileStream → Option (PyDict × FileStream))
    (ctx : DeserCtx) :
    List TypeField → FileStream → PyDict → Option (PyDict × FileStream)
  | [], fs, result => some (result, fs)
  | node :: rest, fs, result =>
    match deser_field_go dm ctx node fs result with
    | none => none
    | some (result', fs') => deser_fields_go dm ctx rest fs' result'

/-- SerializedFile.deserialize with a recursion-depth fuel: the Python
recursion has no structural bound (the class map could be cyclic), so
depth is metered; any terminating run is reproduced by a large enough
fuel. -/
def SerializedFile.deserialize : Nat → DeserCtx → MetadataType → FileStream →
    Option (PyDict × FileStream)
  | 0, _, _, _ => none
  | Nat.succ fuel, ctx, mt, fs =>
    deser_fields_go (SerializedFile.deserialize fuel ctx) ctx mt.fields fs []

/-! The serialized-file header, object table entries, dump, and the
archive header of unity.py. -/

/-- unity.FileNode: the directory entry locating a serialized file
inside the logical stream. -/
structure FileNode where
  offset : Nat := 0
  size : Nat := 0
  flags : Nat := 0
  path : List Nat := []
  index : Int := -1
deriving Repr, DecidableEq

/-- serialize.SerializeFileHeader. -/
structure SerializeFileHeader where
  metadata_size : Int := 0
  file_size : Int := 0
  version : Int := 0
  data_offset : Int := 0
  endianess : Bool := false
deriving Repr, DecidableEq

/-- serialize.ObjectInfo after decode. -/
structure ObjectInfo where
  local_identifier_in_file : Int := -1
  byte_start : Nat := 0
  byte_size : Nat := 0
  type_id : Nat := 0
deriving Repr, DecidableEq

/-- The header part of SerializedFile.decode: seek to the node, read
four signed 32-bit fields always with the stream's current endian,
assert the node size matches, read the endianess byte and three
reserved bytes, then switch the stream endian according to the flag. -/
def SerializedFile.decode_header (node : FileNode) (fs : FileStream) :
    Option (SerializeFileHeader × FileStream) :=
  match (fs.seek node.offset).read_sint32 with
  | none => none
  | some (metadata_size, fs) =>
  match fs.read_sint32 with
  | none => none
  | some (file_size, fs) =>
  if (node.size : Int) = file_size then
    match fs.read_sint32 with
    | none => none
    | some (version, fs) =>
    match fs.read_sint32 with
    | none => none
    | some (data_offset, fs) =>
    match fs.read_boolean with
    | none => none
    | some (endianess, fs) =>
    match fs.read 3 with
    | none => none
    | some (_, fs) =>
      some ({ metadata_size := metadata_size, file_size := file_size,
              version := version, data_offset := data_offset,
              endianess := endianess },
            { fs with endian := endianess })
  else none

/-- The per-serialized-file context needed by SerializedFile.dump:
the directory node, the decoded header's data offset, and the decoded
type trees. -/
structure DumpSF where
  node_offset : Nat
  data_offset : Int
  type_trees : List MetadataTypeTree

/-- The object loop of SerializedFile.dump: seek each object's data,
skip objects whose tree has an empty class map or no root class view,
deserialize the rest, and assert the advance equals the object's byte
size (an assertion failure aborts the dump). -/
def SerializedFile.dump_loop (fuel : Nat) (sf : DumpSF) :
    List ObjectInfo → FileStream → Option FileStream
  | [], fs => some fs
  | o :: rest, fs =>
    let target : Int := (sf.node_offset : Int) + sf.data_offset + (o.byte_start : Int)
    if target < 0 then none
    else
      let fs := fs.seek target.toNat
      match sf.type_trees.get? o.type_id with
      | none => none
      | some tree =>
        if tree.type_dict.isEmpty then SerializedFile.dump_loop fuel sf rest fs
        else
          match dictGet tree.type_dict 0 with
          | none => SerializedFile.dump_loop fuel sf rest fs
          | some mt =>
            match SerializedFile.deserialize fuel
                    { nodes := tree.nodes, type_dict := tree.type_dict } mt fs with
            | none => none
            | some (_, fs') =>
              if (fs'.pos : Int) - (fs.pos : Int) = (o.byte_size : Int) then
                SerializedFile.dump_loop fuel sf rest fs'
              else none

/-- unity.ArchiveStorageHeader after decode. -/
structure ArchiveStorageHeader where
  signature : List Nat := []
  version : Int := 0
  unity_web_bundle_version : List Nat := []
  unity_web_minimum_revision : List Nat := []
  size : Nat := 0
  header_size : Nat := 0
  compressed_blocks_info_size : Nat := 0
  uncompressed_blocks_info_size : Nat := 0
  flags : Nat := 0
deriving Repr, DecidableEq

/-- ArchiveStorageHeader.decode: signature string asserted to be
UnityFS, signed version asserted not 5, two version strings, the u64
total size, the two blocks-info sizes with the assert that compressed
is strictly below uncompressed, then the flags; header_size is the
total consumed. -/
def ArchiveStorageHeader.decode (fs : FileStream) :
    Option (ArchiveStorageHeader × FileStream) :=
  let offset := fs.pos
  match fs.read_string with
  | none => none
  | some (signature, fs) =>
  if signature = str_UnityFS then
    match fs.read_sint32 with
    | none => none
    | some (version, fs) =>
    if version = 5 then none
    else
      match fs.read_string with
      | none => none
      | some (unity_web_bundle_version, fs) =>
      match fs.read_string with
      | none => none
      | some (unity_web_minimum_revision, fs) =>
      match fs.read_uint64 with
      | none => none
      | some (size, fs) =>
      match fs.read_uint32 with
      | none => none
      | some (compressed_blocks_info_size, fs) =>
      match fs.read_uint32 with
      | none => none
      | some (uncompressed_blocks_info_size, fs) =>
      if compressed_blocks_info_size < uncompressed_blocks_info_size then
        match fs.read_uint32 with
        | none => none
        | some (flags, fs) =>
          some ({ signature := signature, version := version,
                  unity_web_bundle_version := unity_web_bundle_version,
                  unity_web_minimum_revision := unity_web_minimum_revision,
                  size := size,
                  compressed_blocks_info_size := compressed_blocks_info_size,
                  uncompressed_blocks_info_size := uncompressed_blocks_info_size,
                  flags := flags, header_size := fs.pos - offset }, fs)
      else none
  else none

/-! Helper lemmas about the stream primitives. -/

/-- What a successful counted read guarantees: the chunk is the take
of the buffer at the cursor, nonempty, and the cursor advances by its
length; everything but cursor and counter is unchanged. -/
theorem FileStream.read_spec (fs : FileStream) (n : Nat) (bs : List Nat) (fs' : FileStream)
    (h : fs.read n = some (bs, fs')) :
    bs = (fs.data.drop fs.pos).take n ∧ bs ≠ [] ∧
    fs' = { fs with pos := fs.pos + bs.length, read_count := fs.read_count + n } := by
  simp only [FileStream.read] at h
  split at h
  · exact absurd h (by simp)
  · split at h
    · exact absurd h (by simp)
    · rename_i hne
      injection h with h1
      injection h1 with hbs hfs
      subst hbs
      refine ⟨rfl, ?_, hfs.symm⟩
      intro hemp
      rw [hemp] at hne
      simp at hne

/-- A successful counted read with no armed limit, when the buffer at
the cursor starts with a chunk of exactly the requested length. -/
theorem FileStream.read_exact (fs : FileStream) (n : Nat) (c r : List Nat)
    (hlim : fs.read_limit = 0) (hlay : fs.data.drop fs.pos = c ++ r)
    (hlen : c.length = n) (hpos : 0 < n) :
    fs.read n = some (c, { fs with pos := fs.pos + n, read_count := fs.read_count + n }) := by
  unfold FileStream.read
  rw [if_neg (by rw [hlim]; simp)]
  have hchunk : (fs.data.drop fs.pos).take n = c := by
    rw [hlay, ← hlen, List.take_left]
  simp only [hchunk]
  rw [if_neg (by simp; intro hc; rw [hc] at hlen; simp at hlen; omega)]
  rw [hlen]

/-- read_sint32 success: the value is the signed reading of the 4-byte
slice at the cursor under the stream's endian, and the cursor advances
by exactly 4. -/
theorem FileStream.read_sint32_spec (fs : FileStream) (v : Int) (fs' : FileStream)
    (h : fs.read_sint32 = some (v, fs')) :
    v = toSigned 32 (endianVal fs.endian ((fs.data.drop fs.pos).take 4)) ∧
    fs' = { fs with pos := fs.pos + 4, read_count := fs.read_count + 4 } := by
  unfold FileStream.read_sint32 at h
  split at h
  · rename_i bs fs1 hread
    split at h
    · rename_i hlen
      injection h with h1
      injection h1 with hv hfs
      obtain ⟨hbs, _, hfs1⟩ := FileStream.read_spec fs 4 bs fs1 hread
      subst hv
      constructor
      · rw [hbs]
      · rw [← hfs, hfs1, hlen]
    · exact absurd h (by simp)
  · exact absurd h (by simp)

/-- read_uint32 success. -/
theorem FileStream.read_uint32_spec (fs : FileStream) (v : Nat) (fs' : FileStream)
    (h : fs.read_uint32 = some (v, fs')) :
    v = endianVal fs.endian ((fs.data.drop fs.pos).take 4) ∧
    fs' = { fs with pos := fs.pos + 4, read_count := fs.read_count + 4 } := by
  unfold FileStream.read_uint32 at h
  split at h
  · rename_i bs fs1 hread
    split at h
    · rename_i hlen
      injection h with h1
      injection h1 with hv hfs
      obtain ⟨hbs, _, hfs1⟩ := FileStream.read_spec fs 4 bs fs1 hread
      subst hv
      constructor
      · rw [hbs]
      · rw [← hfs, hfs1, hlen]
    · exact absurd h (by simp)
  · exact absurd h (by simp)

/-- read_short success: the cursor advances by exactly 2 and the value
reads the 2-byte slice. -/
theorem FileStream.read_short_spec (fs : FileStream) (v : Int) (fs' : FileStream)
    (h : fs.read_short = some (v, fs')) :
    v = toSigned 16 (endianVal fs.endian ((fs.data.drop fs.pos).take 2)) ∧
    fs' = { fs with pos := fs.pos + 2, read_count := fs.read_count + 2 } := by
  unfold FileStream.read_short at h
  split at h
  · rename_i bs fs1 hread
    split at h
    · rename_i hlen
      injection h with h1
      injection h1 with hv hfs
      obtain ⟨hbs, _, hfs1⟩ := FileStream.read_spec fs 2 bs fs1 hread
      subst hv
      constructor
      · rw [hbs]
      · rw [← hfs, hfs1, hlen]
    · exact absurd h (by simp)
  · exact absurd h (by simp)

/-- read_boolean success: the flag is whether the byte at the cursor is
nonzero, and only the cursor moves, by one. -/
theorem FileStream.read_boolean_spec (fs : FileStream) (b : Bool) (fs' : FileStream)
    (h : fs.read_boolean = some (b, fs')) :
    b = (((fs.data.drop fs.pos).take 1).headD 0 != 0) ∧
    fs' = { fs with pos := fs.pos + 1 } := by
  unfold FileStream.read_boolean at h
  split at h
  · rename_i x heq
    injection h with h1
    injection h1 with hb hfs
    rw [heq]
    exact ⟨by rw [← hb]; rfl, hfs.symm⟩
  · exact absurd h (by simp)

/-- Aligning to 4 lands on a multiple of 4, moving only the cursor. -/
theorem FileStream.align_spec (fs : FileStream) :
    (fs.align 4).pos % 4 = 0 ∧
    (fs.align 4).data = fs.data ∧ (fs.align 4).endian = fs.endian := by
  simp only [FileStream.align]
  split
  · rename_i hm
    exact ⟨by show (fs.pos + (4 - fs.pos % 4)) % 4 = 0; omega, rfl, rfl⟩
  · rename_i hm
    exact ⟨by show fs.pos % 4 = 0; omega, rfl, rfl⟩

/-! Claim C2: FileStream.read near the end of the stream. -/

/-- C2 counterexample: with only 2 bytes remaining, read(4) does not
raise — it succeeds and returns just 2 bytes, so read can return fewer
than n bytes. -/
theorem C2_read_returns_short_chunk :
    FileStream.read { data := [1, 2], pos := 0, endian := true, read_limit := 0, read_count := 0 } 4 =
      some ([1, 2], { data := [1, 2], pos := 2, endian := true, read_limit := 0, read_count := 4 }) ∧
    ([1, 2] : List Nat).length < 4 := by
  exact ⟨rfl, by decide⟩

/-- C2 amended: with no armed read limit, read(n) raises exactly when
the buffer yields nothing (n = 0 or the cursor is at or past the end);
when between 1 and n-1 bytes remain it succeeds and returns exactly the
remaining bytes, fewer than n. -/
theorem C2_read_fails_iff_empty (fs : FileStream) (n : Nat) (hlim : fs.read_limit = 0) :
    (fs.read n = none ↔ (n = 0 ∨ fs.data.length ≤ fs.pos)) ∧
    (0 < fs.data.length - fs.pos → fs.data.length - fs.pos < n →
      fs.read n = some (fs.data.drop fs.pos,
        { fs with pos := fs.data.length, read_count := fs.read_count + n })) := by
  have hlen : ((fs.data.drop fs.pos).take n).length = min n (fs.data.length - fs.pos) := by
    simp [List.length_take, List.length_drop]
  constructor
  · simp only [FileStream.read]
    rw [if_neg (by rw [hlim]; simp)]
    constructor
    · intro h
      split at h
      · rename_i hemp
        have := List.isEmpty_iff_length_eq_zero.mp hemp
        rw [hlen] at this
        omega
      · exact absurd h (by simp)
    · intro h
      rw [if_pos]
      rw [List.isEmpty_iff_length_eq_zero, hlen]
      omega
  · intro h1 h2
    have htake : (fs.data.drop fs.pos).take n = fs.data.drop fs.pos := by
      apply List.take_of_length_le
      rw [List.length_drop]
      omega
    simp only [FileStream.read]
    rw [if_neg (by rw [hlim]; simp)]
    rw [htake]
    rw [if_neg (by rw [List.isEmpty_iff_length_eq_zero, List.length_drop]; omega)]
    have : fs.pos + (fs.data.drop fs.pos).length = fs.data.length := by
      rw [List.length_drop]
      omega
    rw [this]

/-- C2 witness: the amended statement at a concrete stream with 2 bytes
remaining and a 5-byte request. -/
theorem C2_read_fails_iff_empty_witness :
    ((FileStream.read { data := [5, 6, 7], pos := 1, endian := true, read_limit := 0, read_count := 0 } 5 = none ↔
        (5 = 0 ∨ ([5, 6, 7] : List Nat).length ≤ 1)) ∧
     (0 < ([5, 6, 7] : List Nat).length - 1 → ([5, 6, 7] : List Nat).length - 1 < 5 →
       FileStream.read { data := [5, 6, 7], pos := 1, endian := true, read_limit := 0, read_count := 0 } 5 =
         some (([5, 6, 7] : List Nat).drop 1,
           { data := [5, 6, 7], pos := ([5, 6, 7] : List Nat).length, endian := true,
             read_limit := 0, read_count := 0 + 5 }))) :=
  C2_read_fails_iff_empty
    { data := [5, 6, 7], pos := 1, endian := true, read_limit := 0, read_count := 0 } 5 rfl

/-! Claim C1: post-array alignment in the deserializer. -/

/-- C1 counterexample: an array field whose decoded element count is 0,
deserialized from an unaligned start (position 2): the field step
succeeds, consumes only the 4 count bytes, and ends at position 6 —
not a multiple of 4, so no align(4) happened for count 0. -/
theorem C1_zero_count_skips_align :
    ((deser_field_go (fun _ _ => none)
        { nodes := [{ index := 0 }, {}, { byte_size := 1 }], type_dict := [] }
        { is_array := true, index := 0, name := [97] }
        { data := [9, 9, 0, 0, 0, 0], pos := 2, endian := false, read_limit := 0, read_count := 0 }
        []).map (fun p => p.2.pos) = some 6) ∧
    ((FileStream.read_sint32
        { data := [9, 9, 0, 0, 0, 0], pos := 2, endian := false, read_limit := 0, read_count := 0 }).map
          (·.1) = some 0) ∧
    ¬ 6 % 4 = 0 := by
  exact ⟨rfl, rfl, by decide⟩

/-- C1 amended: whenever the deserializer completes an array field whose
decoded element count is nonzero, the field ends with align(4), so the
final position is a multiple of 4; a zero count skips the alignment
(see the C10 theorem for what happens then). -/
theorem C1_array_nonzero_count_aligns
    (dm : MetadataType → FileStream → Option (PyDict × FileStream))
    (ctx : DeserCtx) (node : TypeField) (fs fs1 fs' : FileStream)
    (result r : PyDict) (cnt : Int)
    (ha : node.is_array = true)
    (hc : fs.read_sint32 = some (cnt, fs1))
    (hnz : cnt ≠ 0)
    (h : deser_field_go dm ctx node fs result = some (r, fs')) :
    fs'.pos % 4 = 0 := by
  unfold deser_field_go at h
  rw [ha] at h
  rw [if_pos rfl] at h
  split at h
  · exact absurd h (by simp)
  · rename_i elem hel
    rw [hc] at h
    simp only at h
    rw [if_neg hnz] at h
    split at h
    · -- element byte size 1: blob read then align
      split at h
      · exact absurd h (by simp)
      · rename_i data fs2 hread
        injection h with h1
        injection h1 with hr hfs
        rw [← hfs]
        exact (FileStream.align_spec fs2).1
    · -- element loops then align
      split at h
      · exact absurd h (by simp)
      · rename_i items fs2 hloop
        injection h with h1
        injection h1 with hr hfs
        rw [← hfs]
        exact (FileStream.align_spec fs2).1

/-- C1 witness: the amended statement at a concrete byte-element array
with count 1 starting at position 2: final position 8 is a multiple
of 4. -/
theorem C1_array_nonzero_count_aligns_witness :
    (deser_field_go (fun _ _ => none)
        { nodes := [{ index := 0 }, {}, { byte_size := 1 }], type_dict := [] }
        { is_array := true, index := 0, name := [97] }
        { data := [9, 9, 1, 0, 0, 0, 65, 0], pos := 2, endian := false, read_limit := 0, read_count := 0 }
        []).map (fun p => p.2.pos) = some 8 ∧
    (8 : Nat) % 4 = 0 := by
  refine ⟨rfl, ?_⟩
  have h :=
    C1_array_nonzero_count_aligns (fun _ _ => none)
      { nodes := [{ index := 0 }, {}, { byte_size := 1 }], type_dict := [] }
      { is_array := true, index := 0, name := [97] }
      { data := [9, 9, 1, 0, 0, 0, 65, 0], pos := 2, endian := false, read_limit := 0, read_count := 0 }
      { data := [9, 9, 1, 0, 0, 0, 65, 0], pos := 6, endian := false, read_limit := 0, read_count := 4 }
      { data := [9, 9, 1, 0, 0, 0, 65, 0], pos := 8, endian := false, read_limit := 0, read_count := 5 }
      []
      [([97],
        Value.vObject [(str_size, Value.vInt 1), (str_data, Value.vBytes [65])])]
      1 rfl rfl (by decide) rfl
  exact h

/-! Claim C10: the empty-array record. -/

/-- C10: an array field with decoded element count 0 stores a record
holding only the size key (value 0) under the field's name, consumes
exactly the 4 count bytes, and performs no alignment. -/
theorem C10_zero_count_record
    (dm : MetadataType → FileStream → Option (PyDict × FileStream))
    (ctx : DeserCtx) (node : TypeField) (fs fs1 : FileStream)
    (result : PyDict) (elem : TypeField)
    (ha : node.is_array = true)
    (hel : pyGet ctx.nodes (node.index + 2) = some elem)
    (hc : fs.read_sint32 = some (0, fs1)) :
    deser_field_go dm ctx node fs result =
      some (dictSet result node.name (Value.vObject [(str_size, Value.vInt 0)]), fs1) ∧
    fs1.pos = fs.pos + 4 := by
  constructor
  · unfold deser_field_go
    rw [ha]
    rw [if_pos rfl, hel]
    simp only
    rw [hc]
    simp only
    rw [if_pos trivial]
  · obtain ⟨_, hfs⟩ := FileStream.read_sint32_spec fs 0 fs1 hc
    rw [hfs]

/-- C10 witness: the statement at a concrete empty array starting at an
unaligned position. -/
theorem C10_zero_count_record_witness :
    deser_field_go (fun _ _ => none)
      { nodes := [{ index := 0 }, {}, { byte_size := 1 }], type_dict := [] }
      { is_array := true, index := 0, name := [97] }
      { data := [9, 9, 0, 0, 0, 0], pos := 2, endian := false, read_limit := 0, read_count := 0 }
      [] =
      some (dictSet [] [97] (Value.vObject [(str_size, Value.vInt 0)]),
        { data := [9, 9, 0, 0, 0, 0], pos := 6, endian := false, read_limit := 0, read_count := 4 }) ∧
    (6 : Nat) = 2 + 4 :=
  C10_zero_count_record (fun _ _ => none)
    { nodes := [{ index := 0 }, {}, { byte_size := 1 }], type_dict := [] }
    { is_array := true, index := 0, name := [97] }
    { data := [9, 9, 0, 0, 0, 0], pos := 2, endian := false, read_limit := 0, read_count := 0 }
    { data := [9, 9, 0, 0, 0, 0], pos := 6, endian := false, read_limit := 0, read_count := 4 }
    [] { byte_size := 1 } rfl rfl rfl

/-! Claim C9: the script type hash in the type-tree header. -/

/-- C9: when decoding a type-tree header with at least 39 bytes
available and no armed read limit, the 16 bytes immediately after
script_type_index become script_type_hash exactly when the decoded
persistent_type_id is 114, in which case type_hash is the following 16
bytes and 39 bytes are consumed; for any other id those 16 bytes are
not consumed — script_type_hash stays empty, type_hash is the 16 bytes
right after script_type_index, and 23 bytes are consumed. -/
theorem C9_script_hash_iff_114 (e : Bool) (fs fs' : FileStream) (t : MetadataTypeTree)
    (hdata : fs.pos + 39 ≤ fs.data.length)
    (hlim : fs.read_limit = 0)
    (h : MetadataTypeTree.decode_header e fs = some (t, fs')) :
    (t.persistent_type_id = 114 →
      t.script_type_hash = (fs.data.drop (fs.pos + 7)).take 16 ∧
      t.type_hash = (fs.data.drop (fs.pos + 23)).take 16 ∧
      fs'.pos = fs.pos + 39) ∧
    (t.persistent_type_id ≠ 114 →
      t.script_type_hash = [] ∧
      t.type_hash = (fs.data.drop (fs.pos + 7)).take 16 ∧
      fs'.pos = fs.pos + 23) := by
  unfold MetadataTypeTree.decode_header at h
  split at h
  · exact absurd h (by simp)
  · rename_i pid fsa hpid
    split at h
    · exact absurd h (by simp)
    · rename_i stripped fsb hstr
      split at h
      · exact absurd h (by simp)
      · rename_i sti fsc hsti
        split at h
        · exact absurd h (by simp)
        · rename_i shash fsd hsh
          split at h
          · exact absurd h (by simp)
          · rename_i thash fse hth
            obtain ⟨_, hfsa⟩ := FileStream.read_sint32_spec fs pid fsa hpid
            have hfsa_pos : fsa.pos = fs.pos + 4 := by rw [hfsa]
            have hfsa_data : fsa.data = fs.data := by rw [hfsa]
            have hfsa_lim : fsa.read_limit = fs.read_limit := by rw [hfsa]
            obtain ⟨_, hfsb⟩ := FileStream.read_boolean_spec fsa stripped fsb hstr
            have hfsb_pos : fsb.pos = fs.pos + 5 := by rw [hfsb, hfsa_pos]
            have hfsb_data : fsb.data = fs.data := by rw [hfsb, hfsa_data]
            have hfsb_lim : fsb.read_limit = fs.read_limit := by rw [hfsb, hfsa_lim]
            obtain ⟨_, hfsc⟩ := FileStream.read_short_spec fsb sti fsc hsti
            have hfsc_pos : fsc.pos = fs.pos + 7 := by rw [hfsc, hfsb_pos]
            have hfsc_data : fsc.data = fs.data := by rw [hfsc, hfsb_data]
            have hfsc_lim : fsc.read_limit = 0 := by rw [hfsc, hfsb_lim, hlim]
            injection h with h1
            injection h1 with ht hfs'
            by_cases hp : pid = MONO_BEHAVIOUR_PERSISTENT_ID
            · rw [if_pos hp] at hsh
              have hc1 : fsc.data.drop fsc.pos =
                  ((fsc.data.drop fsc.pos).take 16) ++ ((fsc.data.drop fsc.pos).drop 16) :=
                (List.take_append_drop 16 _).symm
              have hlen16 : ((fsc.data.drop fsc.pos).take 16).length = 16 := by
                rw [List.length_take, List.length_drop, hfsc_data, hfsc_pos]
                omega
              have hread := FileStream.read_exact fsc 16 ((fsc.data.drop fsc.pos).take 16)
                ((fsc.data.drop fsc.pos).drop 16) hfsc_lim hc1 hlen16 (by omega)
              rw [hread] at hsh
              injection hsh with hsh1
              injection hsh1 with hshash hfsd
              have hfsd_pos : fsd.pos = fs.pos + 23 := by rw [← hfsd, hfsc_pos]
              have hfsd_data : fsd.data = fs.data := by rw [← hfsd, hfsc_data]
              have hfsd_lim : fsd.read_limit = 0 := by rw [← hfsd]; exact hfsc_lim
              have hc2 : fsd.data.drop fsd.pos =
                  ((fsd.data.drop fsd.pos).take 16) ++ ((fsd.data.drop fsd.pos).drop 16) :=
                (List.take_append_drop 16 _).symm
              have hlen16b : ((fsd.data.drop fsd.pos).take 16).length = 16 := by
                rw [List.length_take, List.length_drop, hfsd_data, hfsd_pos]
                omega
              have hread2 := FileStream.read_exact fsd 16 ((fsd.data.drop fsd.pos).take 16)
                ((fsd.data.drop fsd.pos).drop 16) hfsd_lim hc2 hlen16b (by omega)
              rw [hread2] at hth
              injection hth with hth1
              injection hth1 with hthash hfse
              constructor
              · intro _
                refine ⟨?_, ?_, ?_⟩
                · rw [← ht, ← hshash, hfsc_data, hfsc_pos]
                · rw [← ht, ← hthash, hfsd_data, hfsd_pos]
                · rw [← hfs', ← hfse, hfsd_pos]
              · intro hne
                exact absurd (by rw [← ht]; exact hp) hne
            · rw [if_neg hp] at hsh
              injection hsh with hsh1
              injection hsh1 with hshash hfsd
              have hfsd_pos : fsd.pos = fs.pos + 7 := by rw [← hfsd, hfsc_pos]
              have hfsd_data : fsd.data = fs.data := by rw [← hfsd, hfsc_data]
              have hfsd_lim : fsd.read_limit = 0 := by rw [← hfsd]; exact hfsc_lim
              have hc2 : fsd.data.drop fsd.pos =
                  ((fsd.data.drop fsd.pos).take 16) ++ ((fsd.data.drop fsd.pos).drop 16) :=
                (List.take_append_drop 16 _).symm
              have hlen16b : ((fsd.data.drop fsd.pos).take 16).length = 16 := by
                rw [List.length_take, List.length_drop, hfsd_data, hfsd_pos]
                omega
              have hread2 := FileStream.read_exact fsd 16 ((fsd.data.drop fsd.pos).take 16)
                ((fsd.data.drop fsd.pos).drop 16) hfsd_lim hc2 hlen16b (by omega)
              rw [hread2] at hth
              injection hth with hth1
              injection hth1 with hthash hfse
              constructor
              · intro hp114
                rw [← ht] at hp114
                exact absurd hp114 hp
              · intro _
                refine ⟨?_, ?_, ?_⟩
                · rw [← ht, ← hshash]
                · rw [← ht, ← hthash, hfsd_data, hfsd_pos]
                · rw [← hfs', ← hfse, hfsd_pos]

/-- C9 witness: a concrete 39-byte MonoBehaviour (id 114) type-tree
header, little endian. -/
theorem C9_script_hash_iff_114_witness :
    (((114 : Int) = 114 →
      ([1, 2, 3, 4, 5, 6, 7, 8, 9, 10, 11, 12, 13, 14, 15, 16] : List Nat) =
        ((([114, 0, 0, 0, 0, 0, 0,
            1, 2, 3, 4, 5, 6, 7, 8, 9, 10, 11, 12, 13, 14, 15, 16,
            100, 101, 102, 103, 104, 105, 106, 107, 108, 109, 110, 111, 112, 113, 114, 115] : List Nat).drop (0 + 7)).take 16) ∧
      ([100, 101, 102, 103, 104, 105, 106, 107, 108, 109, 110, 111, 112, 113, 114, 115] : List Nat) =
        ((([114, 0, 0, 0, 0, 0, 0,
            1, 2, 3, 4, 5, 6, 7, 8, 9, 10, 11, 12, 13, 14, 15, 16,
            100, 101, 102, 103, 104, 105, 106, 107, 108, 109, 110, 111, 112, 113, 114, 115] : List Nat).drop (0 + 23)).take 16) ∧
      (39 : Nat) = 0 + 39) ∧
     ((114 : Int) ≠ 114 →
      ([1, 2, 3, 4, 5, 6, 7, 8, 9, 10, 11, 12, 13, 14, 15, 16] : List Nat) = [] ∧
      ([100, 101, 102, 103, 104, 105, 106, 107, 108, 109, 110, 111, 112, 113, 114, 115] : List Nat) =
        ((([114, 0, 0, 0, 0, 0, 0,
            1, 2, 3, 4, 5, 6, 7, 8, 9, 10, 11, 12, 13, 14, 15, 16,
            100, 101, 102, 103, 104, 105, 106, 107, 108, 109, 110, 111, 112, 113, 114, 115] : List Nat).drop (0 + 7)).take 16) ∧
      (39 : Nat) = 0 + 23)) :=
  C9_script_hash_iff_114 true
    { data := [114, 0, 0, 0, 0, 0, 0,
               1, 2, 3, 4, 5, 6, 7, 8, 9, 10, 11, 12, 13, 14, 15, 16,
               100, 101, 102, 103, 104, 105, 106, 107, 108, 109, 110, 111, 112, 113, 114, 115],
      pos := 0, endian := false, read_limit := 0, read_count := 0 }
    { data := [114, 0, 0, 0, 0, 0, 0,
               1, 2, 3, 4, 5, 6, 7, 8, 9, 10, 11, 12, 13, 14, 15, 16,
               100, 101, 102, 103, 104, 105, 106, 107, 108, 109, 110, 111, 112, 113, 114, 115],
      pos := 39, endian := false, read_limit := 0, read_count := 38 }
    { persistent_type_id := 114, is_stripped_type := false, script_type_index := 0,
      script_type_hash := [1, 2, 3, 4, 5, 6, 7, 8, 9, 10, 11, 12, 13, 14, 15, 16],
      type_hash := [100, 101, 102, 103, 104, 105, 106, 107, 108, 109, 110, 111, 112, 113, 114, 115],
      nodes := [], strings := [], type_tree_enabled := true, type_dict := [], name := [] }
    (by decide) rfl rfl

/-! Claim C6: index contiguity of decoded type trees. -/

/-- Invariant of the node loop: whatever the first node's index, every
later node at position i has index exactly i, because the running
counter assert compares against the position, not the previous
index. -/
theorem decode_nodes_index_inv :
    ∀ (n : Nat) (ti : Int) (acc : List TypeField) (fs : FileStream)
      (ns : List TypeField) (fs' : FileStream),
      MetadataTypeTree.decode_nodes n ti acc fs = some (ns, fs') →
      ti = (acc.length : Int) - 1 →
      (∀ i f, 1 ≤ i → acc.get? i = some f → f.index = (i : Int)) →
      (∀ i f, 1 ≤ i → ns.get? i = some f → f.index = (i : Int)) := by
  intro n
  induction n with
  | zero =>
    intro ti acc fs ns fs' h hti hacc
    unfold MetadataTypeTree.decode_nodes at h
    injection h with h1
    injection h1 with hns _
    rw [← hns]
    exact hacc
  | succ n ih =>
    intro ti acc fs ns fs' h hti hacc
    unfold MetadataTypeTree.decode_nodes at h
    split at h
    · exact absurd h (by simp)
    · rename_i node fs1 hdec
      have happ : ∀ hchk : node.index = ti + 1,
          (∀ i f, 1 ≤ i → (acc ++ [node]).get? i = some f → f.index = (i : Int)) := by
        intro hchk i f hi hget
        by_cases hcase : i < acc.length
        · rw [List.get?_eq_getElem?, List.getElem?_append_left hcase,
              ← List.get?_eq_getElem?] at hget
          exact hacc i f hi hget
        · by_cases hcase2 : i = acc.length
          · subst hcase2
            rw [List.get?_eq_getElem?, List.getElem?_concat_length] at hget
            injection hget with hf
            rw [← hf, hchk, hti]
            ring
          · have : (acc ++ [node]).length ≤ i := by
              rw [List.length_append]
              simp only [List.length_singleton]
              omega
            rw [List.get?_eq_none.mpr this] at hget
            exact absurd hget (by simp)
      split at h
      · rename_i hge
        split at h
        · rename_i hchk
          refine ih (ti + 1) (acc ++ [node]) fs1 ns fs' h ?_ (happ hchk)
          simp only [List.length_append, List.length_singleton]
          push_cast
          omega
        · exact absurd h (by simp)
      · rename_i hlt
        have hlen0 : acc.length = 0 := by omega
        have hacc' : ∀ i f, 1 ≤ i → (acc ++ [node]).get? i = some f → f.index = (i : Int) := by
          intro i f hi hget
          have hacc_nil : acc = [] := List.length_eq_zero.mp hlen0
          subst hacc_nil
          simp only [List.nil_append] at hget
          have : i = 0 := by
            by_contra hne
            rw [List.get?_eq_none.mpr (by simp; omega)] at hget
            exact absurd hget (by simp)
          omega
        refine ih (ti + 1) (acc ++ [node]) fs1 ns fs' h ?_ hacc'
        simp only [List.length_append, List.length_singleton]
        push_cast
        omega

/-- Name resolution keeps each node's position and index. -/
theorem resolve_nodes_index :
    ∀ (l : List TypeField) (s : List (Nat × List Nat)) (l' : List TypeField),
      MetadataTypeTree.resolve_nodes l s = some l' →
      ∀ i f, l'.get? i = some f → ∃ g, l.get? i = some g ∧ f.index = g.index := by
  intro l
  induction l with
  | nil =>
    intro s l' h i f hget
    unfold MetadataTypeTree.resolve_nodes at h
    injection h with h1
    rw [← h1] at hget
    exact absurd hget (by simp)
  | cons n rest ih =>
    intro s l' h i f hget
    unfold MetadataTypeTree.resolve_nodes at h
    split at h
    · rename_i nm ty r hnm hty hrest
      injection h with h1
      rw [← h1] at hget
      cases i with
      | zero =>
        injection hget with hf
        exact ⟨n, rfl, by rw [← hf]⟩
      | succ i =>
        simp only [List.get?_cons_succ] at hget
        obtain ⟨g, hg, hidx⟩ := ih s r hrest i f hget
        exact ⟨g, hg, hidx⟩
    · exact absurd h (by simp)

/-- C6 counterexample: a successful inline type-tree decode whose single
node has index 7 — the decoder never checks the first node's index, so
fields at position 0 need not carry index 0. -/
theorem C6_first_index_unchecked :
    ((MetadataTypeTree.decode_type_tree {} { data := [1, 0, 0, 0, 4, 0, 0, 0, 1, 0, 0, 0, 0, 0, 0, 0, 0, 0, 0, 0, 4, 0, 0, 0, 7, 0, 0, 0, 0, 0, 0, 0, 105, 110, 116, 0], pos := 0, endian := false, read_limit := 0, read_count := 0 }).map (fun p => p.1.nodes.map (·.index)) = some [7]) ∧
    ¬ ((7 : Int) = 0) := by
  constructor
  · have h1 : FileStream.read_uint32 { data := [1, 0, 0, 0, 4, 0, 0, 0, 1, 0, 0, 0, 0, 0, 0, 0, 0, 0, 0, 0, 4, 0, 0, 0, 7, 0, 0, 0, 0, 0, 0, 0, 105, 110, 116, 0], pos := 0, endian := false, read_limit := 0, read_count := 0 } = some (1, { data := [1, 0, 0, 0, 4, 0, 0, 0, 1, 0, 0, 0, 0, 0, 0, 0, 0, 0, 0, 0, 4, 0, 0, 0, 7, 0, 0, 0, 0, 0, 0, 0, 105, 110, 116, 0], pos := 4, endian := false, read_limit := 0, read_count := 4 }) := rfl
    have h2 : FileStream.read_uint32 { data := [1, 0, 0, 0, 4, 0, 0, 0, 1, 0, 0, 0, 0, 0, 0, 0, 0, 0, 0, 0, 4, 0, 0, 0, 7, 0, 0, 0, 0, 0, 0, 0, 105, 110, 116, 0], pos := 4, endian := false, read_limit := 0, read_count := 4 } = some (4, { data := [1, 0, 0, 0, 4, 0, 0, 0, 1, 0, 0, 0, 0, 0, 0, 0, 0, 0, 0, 0, 4, 0, 0, 0, 7, 0, 0, 0, 0, 0, 0, 0, 105, 110, 116, 0], pos := 8, endian := false, read_limit := 0, read_count := 8 }) := rfl
    have h3 : MetadataTypeTree.decode_nodes 1 (-1) [] { data := [1, 0, 0, 0, 4, 0, 0, 0, 1, 0, 0, 0, 0, 0, 0, 0, 0, 0, 0, 0, 4, 0, 0, 0, 7, 0, 0, 0, 0, 0, 0, 0, 105, 110, 116, 0], pos := 8, endian := false, read_limit := 0, read_count := 8 } = some ([{ version := 1, level := 0, is_array := false, type := [], type_str_offset := 0, name := [], name_str_offset := 0, byte_size := 4, index := 7, meta_flags := 0 }], { data := [1, 0, 0, 0, 4, 0, 0, 0, 1, 0, 0, 0, 0, 0, 0, 0, 0, 0, 0, 0, 4, 0, 0, 0, 7, 0, 0, 0, 0, 0, 0, 0, 105, 110, 116, 0], pos := 32, endian := false, read_limit := 0, read_count := 31 }) := rfl
    have h4 : MetadataTypeTree.intern_strings_phase 4 { data := [1, 0, 0, 0, 4, 0, 0, 0, 1, 0, 0, 0, 0, 0, 0, 0, 0, 0, 0, 0, 4, 0, 0, 0, 7, 0, 0, 0, 0, 0, 0, 0, 105, 110, 116, 0], pos := 32, endian := false, read_limit := 0, read_count := 31 } = some ([(0, [105, 110, 116])], { data := [1, 0, 0, 0, 4, 0, 0, 0, 1, 0, 0, 0, 0, 0, 0, 0, 0, 0, 0, 0, 4, 0, 0, 0, 7, 0, 0, 0, 0, 0, 0, 0, 105, 110, 116, 0], pos := 36, endian := false, read_limit := 0, read_count := 35 }) := rfl
    have h5 : MetadataTypeTree.resolve_nodes [{ version := 1, level := 0, is_array := false, type := [], type_str_offset := 0, name := [], name_str_offset := 0, byte_size := 4, index := 7, meta_flags := 0 }] [(0, [105, 110, 116])] = some [{ version := 1, level := 0, is_array := false, type := [105, 110, 116], type_str_offset := 0, name := [105, 110, 116], name_str_offset := 0, byte_size := 4, index := 7, meta_flags := 0 }] := rfl
    have h6 : pyGet ([{ version := 1, level := 0, is_array := false, type := [105, 110, 116], type_str_offset := 0, name := [105, 110, 116], name_str_offset := 0, byte_size := 4, index := 7, meta_flags := 0 }] : List TypeField) (0 : Int) = some ({ version := 1, level := 0, is_array := false, type := [105, 110, 116], type_str_offset := 0, name := [105, 110, 116], name_str_offset := 0, byte_size := 4, index := 7, meta_flags := 0 } : TypeField) := rfl
    simp only [MetadataTypeTree.decode_type_tree, h1, h2, h3, h4, h5, h6]
    rfl
  · decide

/-- C6 amended: a successful inline type-tree decode guarantees
fields[i].index == i for every position i from 1 on; the first field's
index is not checked by the parser. -/
theorem C6_index_contiguity_from_one (t t' : MetadataTypeTree) (fs fs' : FileStream)
    (h : MetadataTypeTree.decode_type_tree t fs = some (t', fs')) :
    ∀ i f, 1 ≤ i → t'.nodes.get? i = some f → f.index = (i : Int) := by
  intro i f hi hget
  unfold MetadataTypeTree.decode_type_tree at h
  split at h
  · exact absurd h (by simp)
  · rename_i node_count fs1 hnc
    split at h
    · exact absurd h (by simp)
    · rename_i char_count fs2 hcc
      split at h
      · exact absurd h (by simp)
      · rename_i nodes fs3 hnodes
        split at h
        · exact absurd h (by simp)
        · rename_i strings fs4 hstrs
          split at h
          · exact absurd h (by simp)
          · rename_i nodes' hres
            split at h
            · exact absurd h (by simp)
            · rename_i n0 hn0
              injection h with h1
              injection h1 with ht _
              rw [← ht] at hget
              simp only at hget
              obtain ⟨g, hg, hidx⟩ := resolve_nodes_index nodes strings nodes' hres i f hget
              rw [hidx]
              exact decode_nodes_index_inv node_count (-1) [] fs2 nodes fs3 hnodes
                (by simp) (by intro j fj hj hgj; simp at hgj) i g hi hg

/-- C6 witness: the amended statement at a concrete two-node tree whose
first node has index 7: the node at position 1 carries index 1. -/
theorem C6_index_contiguity_from_one_witness :
    ({ version := 1, level := 1, is_array := false, type := [105, 110, 116], type_str_offset := 0, name := [105, 110, 116], name_str_offset := 0, byte_size := 4, index := 1, meta_flags := 0 } : TypeField).index = ((1 : Nat) : Int) := by
  have h1 : FileStream.read_uint32 { data := [2, 0, 0, 0, 4, 0, 0, 0, 1, 0, 0, 0, 0, 0, 0, 0, 0, 0, 0, 0, 4, 0, 0, 0, 7, 0, 0, 0, 0, 0, 0, 0, 1, 0, 1, 0, 0, 0, 0, 0, 0, 0, 0, 0, 4, 0, 0, 0, 1, 0, 0, 0, 0, 0, 0, 0, 105, 110, 116, 0], pos := 0, endian := false, read_limit := 0, read_count := 0 } = some (2, { data := [2, 0, 0, 0, 4, 0, 0, 0, 1, 0, 0, 0, 0, 0, 0, 0, 0, 0, 0, 0, 4, 0, 0, 0, 7, 0, 0, 0, 0, 0, 0, 0, 1, 0, 1, 0, 0, 0, 0, 0, 0, 0, 0, 0, 4, 0, 0, 0, 1, 0, 0, 0, 0, 0, 0, 0, 105, 110, 116, 0], pos := 4, endian := false, read_limit := 0, read_count := 4 }) := rfl
  have h2 : FileStream.read_uint32 { data := [2, 0, 0, 0, 4, 0, 0, 0, 1, 0, 0, 0, 0, 0, 0, 0, 0, 0, 0, 0, 4, 0, 0, 0, 7, 0, 0, 0, 0, 0, 0, 0, 1, 0, 1, 0, 0, 0, 0, 0, 0, 0, 0, 0, 4, 0, 0, 0, 1, 0, 0, 0, 0, 0, 0, 0, 105, 110, 116, 0], pos := 4, endian := false, read_limit := 0, read_count := 4 } = some (4, { data := [2, 0, 0, 0, 4, 0, 0, 0, 1, 0, 0, 0, 0, 0, 0, 0, 0, 0, 0, 0, 4, 0, 0, 0, 7, 0, 0, 0, 0, 0, 0, 0, 1, 0, 1, 0, 0, 0, 0, 0, 0, 0, 0, 0, 4, 0, 0, 0, 1, 0, 0, 0, 0, 0, 0, 0, 105, 110, 116, 0], pos := 8, endian := false, read_limit := 0, read_count := 8 }) := rfl
  have h3 : MetadataTypeTree.decode_nodes 2 (-1) [] { data := [2, 0, 0, 0, 4, 0, 0, 0, 1, 0, 0, 0, 0, 0, 0, 0, 0, 0, 0, 0, 4, 0, 0, 0, 7, 0, 0, 0, 0, 0, 0, 0, 1, 0, 1, 0, 0, 0, 0, 0, 0, 0, 0, 0, 4, 0, 0, 0, 1, 0, 0, 0, 0, 0, 0, 0, 105, 110, 116, 0], pos := 8, endian := false, read_limit := 0, read_count := 8 } = some ([{ version := 1, level := 0, is_array := false, type := [], type_str_offset := 0, name := [], name_str_offset := 0, byte_size := 4, index := 7, meta_flags := 0 }, { version := 1, level := 1, is_array := false, type := [], type_str_offset := 0, name := [], name_str_offset := 0, byte_size := 4, index := 1, meta_flags := 0 }], { data := [2, 0, 0, 0, 4, 0, 0, 0, 1, 0, 0, 0, 0, 0, 0, 0, 0, 0, 0, 0, 4, 0, 0, 0, 7, 0, 0, 0, 0, 0, 0, 0, 1, 0, 1, 0, 0, 0, 0, 0, 0, 0, 0, 0, 4, 0, 0, 0, 1, 0, 0, 0, 0, 0, 0, 0, 105, 110, 116, 0], pos := 56, endian := false, read_limit := 0, read_count := 54 }) := rfl
  have h4 : MetadataTypeTree.intern_strings_phase 4 { data := [2, 0, 0, 0, 4, 0, 0, 0, 1, 0, 0, 0, 0, 0, 0, 0, 0, 0, 0, 0, 4, 0, 0, 0, 7, 0, 0, 0, 0, 0, 0, 0, 1, 0, 1, 0, 0, 0, 0, 0, 0, 0, 0, 0, 4, 0, 0, 0, 1, 0, 0, 0, 0, 0, 0, 0, 105, 110, 116, 0], pos := 56, endian := false, read_limit := 0, read_count := 54 } = some ([(0, [105, 110, 116])], { data := [2, 0, 0, 0, 4, 0, 0, 0, 1, 0, 0, 0, 0, 0, 0, 0, 0, 0, 0, 0, 4, 0, 0, 0, 7, 0, 0, 0, 0, 0, 0, 0, 1, 0, 1, 0, 0, 0, 0, 0, 0, 0, 0, 0, 4, 0, 0, 0, 1, 0, 0, 0, 0, 0, 0, 0, 105, 110, 116, 0], pos := 60, endian := false, read_limit := 0, read_count := 58 }) := rfl
  have h5 : MetadataTypeTree.resolve_nodes [{ version := 1, level := 0, is_array := false, type := [], type_str_offset := 0, name := [], name_str_offset := 0, byte_size := 4, index := 7, meta_flags := 0 }, { version := 1, level := 1, is_array := false, type := [], type_str_offset := 0, name := [], name_str_offset := 0, byte_size := 4, index := 1, meta_flags := 0 }] [(0, [105, 110, 116])] = some [{ version := 1, level := 0, is_array := false, type := [105, 110, 116], type_str_offset := 0, name := [105, 110, 116], name_str_offset := 0, byte_size := 4, index := 7, meta_flags := 0 }, { version := 1, level := 1, is_array := false, type := [105, 110, 116], type_str_offset := 0, name := [105, 110, 116], name_str_offset := 0, byte_size := 4, index := 1, meta_flags := 0 }] := rfl
  have h6 : pyGet ([{ version := 1, level := 0, is_array := false, type := [105, 110, 116], type_str_offset := 0, name := [105, 110, 116], name_str_offset := 0, byte_size := 4, index := 7, meta_flags := 0 }, { version := 1, level := 1, is_array := false, type := [105, 110, 116], type_str_offset := 0, name := [105, 110, 116], name_str_offset := 0, byte_size := 4, index := 1, meta_flags := 0 }] : List TypeField) (0 : Int) = some ({ version := 1, level := 0, is_array := false, type := [105, 110, 116], type_str_offset := 0, name := [105, 110, 116], name_str_offset := 0, byte_size := 4, index := 7, meta_flags := 0 } : TypeField) := rfl
  have h : MetadataTypeTree.decode_type_tree {} { data := [2, 0, 0, 0, 4, 0, 0, 0, 1, 0, 0, 0, 0, 0, 0, 0, 0, 0, 0, 0, 4, 0, 0, 0, 7, 0, 0, 0, 0, 0, 0, 0, 1, 0, 1, 0, 0, 0, 0, 0, 0, 0, 0, 0, 4, 0, 0, 0, 1, 0, 0, 0, 0, 0, 0, 0, 105, 110, 116, 0], pos := 0, endian := false, read_limit := 0, read_count := 0 } = some ({ persistent_type_id := -1, is_stripped_type := false, script_type_index := -1, script_type_hash := [], type_hash := [], nodes := [{ version := 1, level := 0, is_array := false, type := [105, 110, 116], type_str_offset := 0, name := [105, 110, 116], name_str_offset := 0, byte_size := 4, index := 7, meta_flags := 0 }, { version := 1, level := 1, is_array := false, type := [105, 110, 116], type_str_offset := 0, name := [105, 110, 116], name_str_offset := 0, byte_size := 4, index := 1, meta_flags := 0 }], strings := [(0, [105, 110, 116])], type_tree_enabled := false, type_dict := [], name := [105, 110, 116] }, { data := [2, 0, 0, 0, 4, 0, 0, 0, 1, 0, 0, 0, 0, 0, 0, 0, 0, 0, 0, 0, 4, 0, 0, 0, 7, 0, 0, 0, 0, 0, 0, 0, 1, 0, 1, 0, 0, 0, 0, 0, 0, 0, 0, 0, 4, 0, 0, 0, 1, 0, 0, 0, 0, 0, 0, 0, 105, 110, 116, 0], pos := 60, endian := false, read_limit := 0, read_count := 58 }) := by
    simp only [MetadataTypeTree.decode_type_tree, h1, h2, h3, h4, h5, h6]
  exact C6_index_contiguity_from_one {} { persistent_type_id := -1, is_stripped_type := false, script_type_index := -1, script_type_hash := [], type_hash := [], nodes := [{ version := 1, level := 0, is_array := false, type := [105, 110, 116], type_str_offset := 0, name := [105, 110, 116], name_str_offset := 0, byte_size := 4, index := 7, meta_flags := 0 }, { version := 1, level := 1, is_array := false, type := [105, 110, 116], type_str_offset := 0, name := [105, 110, 116], name_str_offset := 0, byte_size := 4, index := 1, meta_flags := 0 }], strings := [(0, [105, 110, 116])], type_tree_enabled := false, type_dict := [], name := [105, 110, 116] } { data := [2, 0, 0, 0, 4, 0, 0, 0, 1, 0, 0, 0, 0, 0, 0, 0, 0, 0, 0, 0, 4, 0, 0, 0, 7, 0, 0, 0, 0, 0, 0, 0, 1, 0, 1, 0, 0, 0, 0, 0, 0, 0, 0, 0, 4, 0, 0, 0, 1, 0, 0, 0, 0, 0, 0, 0, 105, 110, 116, 0], pos := 0, endian := false, read_limit := 0, read_count := 0 } { data := [2, 0, 0, 0, 4, 0, 0, 0, 1, 0, 0, 0, 0, 0, 0, 0, 0, 0, 0, 0, 4, 0, 0, 0, 7, 0, 0, 0, 0, 0, 0, 0, 1, 0, 1, 0, 0, 0, 0, 0, 0, 0, 0, 0, 4, 0, 0, 0, 1, 0, 0, 0, 0, 0, 0, 0, 105, 110, 116, 0], pos := 60, endian := false, read_limit := 0, read_count := 58 } h 1 { version := 1, level := 1, is_array := false, type := [105, 110, 116], type_str_offset := 0, name := [105, 110, 116], name_str_offset := 0, byte_size := 4, index := 1, meta_flags := 0 } (by decide) rfl

/-! Claim C4: the intern-string region accounting. -/

/-- read_string success: only the cursor and counter move, by the
string's length plus its terminator. -/
theorem FileStream.read_string_spec (fs : FileStream) (s : List Nat) (fs' : FileStream)
    (h : fs.read_string = some (s, fs')) :
    fs' = { fs with pos := fs.pos + (s.length + 1),
                    read_count := fs.read_count + (s.length + 1) } := by
  unfold FileStream.read_string at h
  split at h
  · exact absurd h (by simp)
  · rename_i s0 heq
    split at h
    · exact absurd h (by simp)
    · split at h
      · injection h with h1
        injection h1 with hs hfs
        rw [← hfs, hs]
      · exact absurd h (by simp)

/-- The intern-string loop advances the stream by exactly the sum over
the strings it appends of their length plus one. -/
theorem read_intern_strings_sum :
    ∀ (fuel : Nat) (fs : FileStream) (so sz cc : Nat)
      (strs out : List (Nat × List Nat)) (fs' : FileStream),
      MetadataTypeTree.read_intern_strings fuel fs so sz cc strs = some (out, fs') →
      ∃ d, fs'.pos = fs.pos + d ∧
        (out.map (fun p => p.2.length + 1)).sum =
          (strs.map (fun p => p.2.length + 1)).sum + d := by
  intro fuel
  induction fuel with
  | zero =>
    intro fs so sz cc strs out fs' h
    unfold MetadataTypeTree.read_intern_strings at h
    split at h
    · exact absurd h (by simp)
    · injection h with h1
      injection h1 with hout hfs
      exact ⟨0, by rw [← hfs]; omega, by rw [← hout]; omega⟩
  | succ fuel ih =>
    intro fs so sz cc strs out fs' h
    unfold MetadataTypeTree.read_intern_strings at h
    split at h
    · split at h
      · exact absurd h (by simp)
      · rename_i s fs1 heq
        obtain ⟨d1, hpos, hsum⟩ := ih fs1 so (sz + (fs1.pos - fs.pos)) cc
          (strs ++ [(fs.pos - so, s)]) out fs' h
        have hfs1 := FileStream.read_string_spec fs s fs1 heq
        have hfs1_pos : fs1.pos = fs.pos + (s.length + 1) := by rw [hfs1]
        refine ⟨s.length + 1 + d1, by omega, ?_⟩
        rw [hsum]
        simp only [List.map_append, List.sum_append, List.map_cons, List.map_nil,
          List.sum_cons, List.sum_nil]
        omega
    · injection h with h1
      injection h1 with hout hfs
      exact ⟨0, by rw [← hfs]; omega, by rw [← hout]; omega⟩

/-- C4 counterexample: char_count = 2 with a region holding a single
empty string (1 byte of string data, char_count - 1) followed by one
padding byte: the loop stops before the padding byte, but the assert
that exactly char_count bytes were consumed then fails, so decoding
does NOT succeed in the padding case. -/
theorem C4_padding_byte_rejected :
    MetadataTypeTree.intern_strings_phase 2
      { data := [0, 42], pos := 0, endian := false, read_limit := 0, read_count := 0 } = none ∧
    FileStream.read_string
      { data := [0, 42], pos := 0, endian := false, read_limit := 0, read_count := 0 } =
      some ([], { data := [0, 42], pos := 1, endian := false, read_limit := 0, read_count := 1 }) :=
  ⟨rfl, rfl⟩

/-- C4 amended: when char_count > 0, the intern-string phase succeeds
only in the exact case: it consumes exactly char_count bytes and the
sum over interned strings of len(s) + 1 equals char_count; the loop
guard size + 1 < char_count would leave a single trailing byte
unconsumed, but the closing assert rejects that case. -/
theorem C4_intern_strings_exact (cc : Nat) (fs fs' : FileStream)
    (strs : List (Nat × List Nat))
    (hcc : 0 < cc)
    (h : MetadataTypeTree.intern_strings_phase cc fs = some (strs, fs')) :
    fs'.pos - fs.pos = cc ∧ (strs.map (fun p => p.2.length + 1)).sum = cc := by
  unfold MetadataTypeTree.intern_strings_phase at h
  rw [if_pos hcc] at h
  split at h
  · exact absurd h (by simp)
  · rename_i s0 fs0 heq
    split at h
    · rename_i hif
      injection h with h1
      injection h1 with hs hfs
      obtain ⟨d, hpos, hsum⟩ := read_intern_strings_sum cc fs fs.pos 0 cc [] s0 fs0 heq
      simp only [List.map_nil, List.sum_nil, Nat.zero_add] at hsum
      have hd : d = cc := by omega
      constructor
      · rw [← hfs]
        exact hif
      · rw [← hs, hsum, hd]
    · exact absurd h (by simp)

/-- C4 witness: the exact case at the concrete 4-byte region holding
one string of 3 characters plus its terminator. -/
theorem C4_intern_strings_exact_witness :
    (4 : Nat) - 0 = 4 ∧
    (([(0, [105, 110, 116])] : List (Nat × List Nat)).map (fun p => p.2.length + 1)).sum = 4 :=
  C4_intern_strings_exact 4
    { data := [105, 110, 116, 0], pos := 0, endian := false, read_limit := 0, read_count := 0 }
    { data := [105, 110, 116, 0], pos := 4, endian := false, read_limit := 0, read_count := 4 }
    [(0, [105, 110, 116])] (by decide) rfl

/-! Claim C5: totality of the registrar. -/

/-- Membership under a fresh insertion. -/
theorem hasKey_regInsert (t : TypeField) (f : List TypeField) (d : RegDict) (k : Int)
    (h : hasKey d k = true) : hasKey (regInsert t f d) k = true := by
  simp [hasKey, regInsert] at h ⊢
  exact Or.inr h

/-- A fresh insertion is present under its own key. -/
theorem hasKey_regInsert_self (t : TypeField) (f : List TypeField) (d : RegDict) :
    hasKey (regInsert t f d) t.index = true := by
  simp [hasKey, regInsert]

/-- Draining preserves existing keys. -/
theorem drain_walker_mono :
    ∀ (w : List RegFrame) (d : RegDict) (k : Int),
      hasKey d k = true → hasKey (drain_walker w d) k = true := by
  intro w
  induction w with
  | nil => intro d k h; exact h
  | cons pf ws ih =>
    intro d k h
    obtain ⟨t, f⟩ := pf
    exact ih (regInsert t f d) k (hasKey_regInsert t f d k h)

/-- Draining inserts every frame's parent index. -/
theorem drain_walker_mem :
    ∀ (w : List RegFrame) (d : RegDict) (t : TypeField) (f : List TypeField),
      (t, f) ∈ w → hasKey (drain_walker w d) t.index = true := by
  intro w
  induction w with
  | nil => intro d t f h; exact absurd h (by simp)
  | cons pf ws ih =>
    intro d t f h
    obtain ⟨t0, f0⟩ := pf
    rcases List.mem_cons.mp h with h | h
    · injection h with h1 h2
      subst h1
      exact drain_walker_mono ws (regInsert t f0 d) t.index (hasKey_regInsert_self t f0 d)
    · exact ih (regInsert t0 f0 d) t f h

/-- Popping k frames succeeds whenever k frames exist, leaves the rest
of the walker, preserves keys, and inserts the popped parents. -/
theorem pop_insert_spec :
    ∀ (k : Nat) (w : List RegFrame) (d : RegDict), k ≤ w.length →
      ∃ d', pop_insert k w d = some (w.drop k, d') ∧
        (∀ j, hasKey d j = true → hasKey d' j = true) ∧
        (∀ t f, (t, f) ∈ w.take k → hasKey d' t.index = true) := by
  intro k
  induction k with
  | zero =>
    intro w d _
    exact ⟨d, rfl, fun j h => h, by intro t f h; simp at h⟩
  | succ k ih =>
    intro w d hk
    cases w with
    | nil => simp at hk
    | cons pf ws =>
      obtain ⟨t0, f0⟩ := pf
      simp only [List.length_cons] at hk
      obtain ⟨d', hpop, hmono, htake⟩ := ih ws (regInsert t0 f0 d) (by omega)
      refine ⟨d', ?_, ?_, ?_⟩
      · simp only [pop_insert, List.drop_succ_cons]
        exact hpop
      · intro j h
        exact hmono j (hasKey_regInsert t0 f0 d j h)
      · intro t f h
        simp only [List.take_succ_cons] at h
        rcases List.mem_cons.mp h with h | h
        · injection h with h1 h2
          subst h1
          exact hmono t.index (hasKey_regInsert_self t f0 d)
        · exact htake t f h

/-- chainOK on a cons pair splits into the head bound and the tail. -/
theorem chainOK_cons (a b : TypeField) (r : List TypeField) :
    chainOK (a :: b :: r) = true ↔ (b.level ≤ a.level + 1 ∧ chainOK (b :: r) = true) := by
  simp [chainOK]

/-- The main registrar invariant: with the walker depth equal to the
cursor level, every later field at level at least 1, and levels
growing by at most one, the field loop completes and its class map
keeps all earlier keys, holds every walker parent, and holds every
upcoming non-leaf index. -/
theorem register_loop_spec :
    ∀ (rest : List TypeField) (cursor : TypeField) (walker : List RegFrame) (d : RegDict),
      walker.length = cursor.level →
      (∀ f ∈ rest, 1 ≤ f.level) →
      chainOK (cursor :: rest) = true →
      ∃ d', register_loop rest (some cursor) walker d = some d' ∧
        (∀ k, hasKey d k = true → hasKey d' k = true) ∧
        (∀ t f, (t, f) ∈ walker → hasKey d' t.index = true) ∧
        (∀ k ∈ nonLeafIdx (cursor :: rest), hasKey d' k = true) := by
  intro rest
  induction rest with
  | nil =>
    intro cursor walker d hlen hpos hchain
    refine ⟨drain_walker walker d, rfl, ?_, ?_, ?_⟩
    · exact fun k h => drain_walker_mono walker d k h
    · exact fun t f h => drain_walker_mem walker d t f h
    · intro k h
      simp [nonLeafIdx] at h
  | cons node rest' ih =>
    intro cursor walker d hlen hpos hchain
    have hnode : 1 ≤ node.level := hpos node (by simp)
    obtain ⟨hbound, hchain'⟩ := (chainOK_cons cursor node rest').mp hchain
    have hpos' : ∀ f ∈ rest', 1 ≤ f.level := fun f hf => hpos f (by simp [hf])
    rcases Nat.lt_trichotomy cursor.level node.level with hlt | heq | hgt
    · -- deeper: push a frame
      have hstep : register_loop (node :: rest') (some cursor) walker d =
          register_loop rest' (some node) ((cursor, [node]) :: walker) d := by
        simp only [register_loop]
        rw [if_neg (by omega), if_pos hlt]
      obtain ⟨d', hrun, hmono, hframes, hnl⟩ := ih node ((cursor, [node]) :: walker) d
        (by simp only [List.length_cons]; omega) hpos' hchain'
      refine ⟨d', by rw [hstep]; exact hrun, hmono, ?_, ?_⟩
      · intro t f h
        exact hframes t f (by simp [h])
      · intro k hk
        have : nonLeafIdx (cursor :: node :: rest') =
            cursor.index :: nonLeafIdx (node :: rest') := by
          simp [nonLeafIdx, hlt]
        rw [this] at hk
        rcases List.mem_cons.mp hk with hk | hk
        · subst hk
          exact hframes cursor [node] (by simp)
        · exact hnl k hk
    · -- same level: extend the top frame
      cases walker with
      | nil =>
        exfalso
        simp only [List.length_nil] at hlen
        omega
      | cons pf ws =>
        obtain ⟨p, fl⟩ := pf
        have hstep : register_loop (node :: rest') (some cursor) ((p, fl) :: ws) d =
            register_loop rest' (some node) ((p, fl ++ [node]) :: ws) d := by
          simp only [register_loop]
          rw [if_pos heq]
        obtain ⟨d', hrun, hmono, hframes, hnl⟩ := ih node ((p, fl ++ [node]) :: ws) d
          (by simp only [List.length_cons] at hlen ⊢; omega) hpos' hchain'
        refine ⟨d', by rw [hstep]; exact hrun, hmono, ?_, ?_⟩
        · intro t f h
          rcases List.mem_cons.mp h with h | h
          · injection h with h1 h2
            subst h1
            exact hframes t (fl ++ [node]) (by simp)
          · exact hframes t f (by simp [h])
        · intro k hk
          have : nonLeafIdx (cursor :: node :: rest') = nonLeafIdx (node :: rest') := by
            simp only [nonLeafIdx]
            rw [if_neg (by omega)]
          rw [this] at hk
          exact hnl k hk
    · -- shallower: pop frames, then extend the new top
      have hk : cursor.level - node.level ≤ walker.length := by omega
      obtain ⟨d1, hpop, hmono1, htake⟩ := pop_insert_spec (cursor.level - node.level) walker d hk
      have hdrop_len : (walker.drop (cursor.level - node.level)).length = node.level := by
        rw [List.length_drop]
        omega
      cases hwd : walker.drop (cursor.level - node.level) with
      | nil =>
        exfalso
        rw [hwd] at hdrop_len
        simp at hdrop_len
        omega
      | cons pf ws =>
        obtain ⟨p, fl⟩ := pf
        have hstep : register_loop (node :: rest') (some cursor) walker d =
            register_loop rest' (some node) ((p, fl ++ [node]) :: ws) d1 := by
          simp only [register_loop]
          rw [if_neg (by omega), if_neg (by omega), hpop, hwd]
        obtain ⟨d', hrun, hmono, hframes, hnl⟩ := ih node ((p, fl ++ [node]) :: ws) d1
          (by
            have := hdrop_len
            rw [hwd] at this
            simp only [List.length_cons] at this
            simp only [List.length_cons]
            omega) hpos' hchain'
        refine ⟨d', by rw [hstep]; exact hrun, ?_, ?_, ?_⟩
        · exact fun k h => hmono k (hmono1 k h)
        · intro t f h
          have hsplit : (t, f) ∈ walker.take (cursor.level - node.level) ∨
              (t, f) ∈ walker.drop (cursor.level - node.level) := by
            rw [← List.mem_append, List.take_append_drop]
            exact h
          rcases hsplit with h | h
          · exact hmono t.index (htake t f h)
          · rw [hwd] at h
            rcases List.mem_cons.mp h with h | h
            · injection h with h1 h2
              subst h1
              exact hframes t (fl ++ [node]) (by simp)
            · exact hframes t f (by simp [h])
        · intro k hk
          have : nonLeafIdx (cursor :: node :: rest') = nonLeafIdx (node :: rest') := by
            simp only [nonLeafIdx]
            rw [if_neg (by omega)]
          rw [this] at hk
          exact hnl k hk

/-- C5 counterexample: on the field list holding only the root field,
register_type_tree leaves the class map empty — the root entry at key 0
is NOT inserted, because the loop never pushes a frame and the drain
has nothing to pop. -/
theorem C5_single_root_empty_map :
    register_type_tree [{ level := 0, index := 0 }] = some [] ∧
    hasKey [] 0 = false :=
  ⟨rfl, rfl⟩

/-- C5 amended: for any field list of at least two fields with
fields[0] at level 0 carrying index 0, every later field at level at
least 1, and each level exceeding its predecessor's by at most one,
register_type_tree succeeds, its class map holds an entry for every
non-leaf field's index, and the root entry at key 0 is present; for the
single-root list the map comes out empty. -/
theorem C5_register_totality (f0 f1 : TypeField) (rest : List TypeField)
    (h0 : f0.level = 0) (hidx : f0.index = 0)
    (hpos : ∀ f ∈ f1 :: rest, 1 ≤ f.level)
    (hchain : chainOK (f0 :: f1 :: rest) = true) :
    ∃ d, register_type_tree (f0 :: f1 :: rest) = some d ∧
      hasKey d 0 = true ∧
      ∀ k ∈ nonLeafIdx (f0 :: f1 :: rest), hasKey d k = true := by
  obtain ⟨d, hrun, hmono, hframes, hnl⟩ := register_loop_spec (f1 :: rest) f0 [] []
    (by simp [h0]) hpos (by exact hchain)
  refine ⟨d, ?_, ?_, hnl⟩
  · show register_loop (f0 :: f1 :: rest) none [] [] = some d
    simp only [register_loop]
    exact hrun
  · have h1 : 1 ≤ f1.level := hpos f1 (by simp)
    have hmem : f0.index ∈ nonLeafIdx (f0 :: f1 :: rest) := by
      have : nonLeafIdx (f0 :: f1 :: rest) = f0.index :: nonLeafIdx (f1 :: rest) := by
        simp only [nonLeafIdx]
        rw [if_pos (by omega)]
      rw [this]
      simp
    have := hnl f0.index hmem
    rw [hidx] at this
    exact this

/-- C5 witness: the amended statement at the two-field list root plus
one child. -/
theorem C5_register_totality_witness :
    ∃ d, register_type_tree
        [{ level := 0, index := 0 }, { level := 1, index := 1 }] = some d ∧
      hasKey d 0 = true ∧
      ∀ k ∈ nonLeafIdx [({ level := 0, index := 0 } : TypeField), { level := 1, index := 1 }],
        hasKey d k = true :=
  C5_register_totality { level := 0, index := 0 } { level := 1, index := 1 } []
    rfl rfl (by decide) (by decide)

/-! Claims C7 and C3: the archive header and the serialized-file
header.  The byte layouts are walked with explicit literal streams. -/

/-- Advancing a drop fact past an already-matched chunk. -/
theorem drop_chunk (l a b : List Nat) (p n : Nat)
    (h : l.drop p = a ++ b) (ha : a.length = n) : l.drop (p + n) = b := by
  rw [← List.drop_drop, h, ← ha, List.drop_left]

/-- takeCString on a region made of a zero-free prefix, the terminator,
and anything after. -/
theorem takeCString_append (s r : List Nat) (h : (0 : Nat) ∉ s) :
    takeCString (s ++ 0 :: r) = some s := by
  induction s with
  | nil => simp [takeCString]
  | cons b bs ih =>
    simp only [List.mem_cons, not_or] at h
    show takeCString (b :: (bs ++ 0 :: r)) = some (b :: bs)
    simp only [takeCString]
    rw [if_neg (by omega)]
    rw [ih h.2]
    rfl

/-- read_string over an explicit literal stream whose buffer at the
cursor starts with a zero-free valid string and its terminator. -/
theorem read_string_layout (data s r : List Nat) (p cnt : Nat) (e : Bool)
    (hlay : data.drop p = s ++ 0 :: r) (hnin : (0 : Nat) ∉ s)
    (hval : utf8ValidB s = true) :
    FileStream.read_string
      { data := data, pos := p, endian := e, read_limit := 0, read_count := cnt } =
      some (s, { data := data, pos := p + (s.length + 1), endian := e,
                 read_limit := 0, read_count := cnt + (s.length + 1) }) := by
  have ht : takeCString (data.drop p) = some s := by
    rw [hlay]
    exact takeCString_append s r hnin
  simp only [FileStream.read_string, ht]
  rw [if_neg (by simp)]
  rw [if_pos hval]

/-- A counted read of an exact chunk over an explicit literal stream. -/
theorem read_chunk_layout (data c r : List Nat) (p cnt n : Nat) (e : Bool)
    (hlay : data.drop p = c ++ r) (hlen : c.length = n) (hpos : 0 < n) :
    FileStream.read
      { data := data, pos := p, endian := e, read_limit := 0, read_count := cnt } n =
      some (c, { data := data, pos := p + n, endian := e,
                 read_limit := 0, read_count := cnt + n }) :=
  FileStream.read_exact _ n c r rfl hlay hlen hpos

/-- read_sint32 over an explicit literal stream. -/
theorem read_sint32_layout (data c r : List Nat) (p cnt : Nat) (e : Bool)
    (hlay : data.drop p = c ++ r) (hlen : c.length = 4) :
    FileStream.read_sint32
      { data := data, pos := p, endian := e, read_limit := 0, read_count := cnt } =
      some (toSigned 32 (endianVal e c),
        { data := data, pos := p + 4, endian := e,
          read_limit := 0, read_count := cnt + 4 }) := by
  have hr := read_chunk_layout data c r p cnt 4 e hlay hlen (by omega)
  simp only [FileStream.read_sint32, hr]
  rw [if_pos hlen]

/-- read_uint32 over an explicit literal stream. -/
theorem read_uint32_layout (data c r : List Nat) (p cnt : Nat) (e : Bool)
    (hlay : data.drop p = c ++ r) (hlen : c.length = 4) :
    FileStream.read_uint32
      { data := data, pos := p, endian := e, read_limit := 0, read_count := cnt } =
      some (endianVal e c,
        { data := data, pos := p + 4, endian := e,
          read_limit := 0, read_count := cnt + 4 }) := by
  have hr := read_chunk_layout data c r p cnt 4 e hlay hlen (by omega)
  simp only [FileStream.read_uint32, hr]
  rw [if_pos hlen]

/-- read_uint64 over an explicit literal stream. -/
theorem read_uint64_layout (data c r : List Nat) (p cnt : Nat) (e : Bool)
    (hlay : data.drop p = c ++ r) (hlen : c.length = 8) :
    FileStream.read_uint64
      { data := data, pos := p, endian := e, read_limit := 0, read_count := cnt } =
      some (endianVal e c,
        { data := data, pos := p + 8, endian := e,
          read_limit := 0, read_count := cnt + 8 }) := by
  have hr := read_chunk_layout data c r p cnt 8 e hlay hlen (by omega)
  simp only [FileStream.read_uint64, hr]
  rw [if_pos hlen]

/-- read_boolean over an explicit literal stream. -/
theorem read_boolean_layout (data : List Nat) (b : Nat) (r : List Nat) (p cnt : Nat) (e : Bool)
    (hlay : data.drop p = b :: r) :
    FileStream.read_boolean
      { data := data, pos := p, endian := e, read_limit := 0, read_count := cnt } =
      some (b != 0, { data := data, pos := p + 1, endian := e,
                      read_limit := 0, read_count := cnt }) := by
  unfold FileStream.read_boolean
  rw [show (List.drop p data).take 1 = [b] by rw [hlay]; rfl]

/-- Full characterization of ArchiveStorageHeader.decode over a stream
laid out as the wire format prescribes (a fresh stream at position 0
with the constructor's default big endian): the result is governed
exactly by the three guards, and all multi-byte fields are decoded with
the stream's big endian. -/
theorem archive_decode_layout (data sig n1 n2 b1 b2 b3 b4 b5 rest : List Nat)
    (hdata : data = sig ++ [0] ++ b1 ++ n1 ++ [0] ++ n2 ++ [0] ++ b2 ++ b3 ++ b4 ++ b5 ++ rest)
    (hs0 : (0 : Nat) ∉ sig) (hsv : utf8ValidB sig = true)
    (hn10 : (0 : Nat) ∉ n1) (hn1v : utf8ValidB n1 = true)
    (hn20 : (0 : Nat) ∉ n2) (hn2v : utf8ValidB n2 = true)
    (hb1 : b1.length = 4) (hb2 : b2.length = 8) (hb3 : b3.length = 4)
    (hb4 : b4.length = 4) (hb5 : b5.length = 4) :
    ArchiveStorageHeader.decode
      { data := data, pos := 0, endian := true, read_limit := 0, read_count := 0 } =
      (if sig = str_UnityFS then
        if toSigned 32 (endianVal true b1) = 5 then none
        else if endianVal true b3 < endianVal true b4 then
          some ({ signature := sig, version := toSigned 32 (endianVal true b1),
                  unity_web_bundle_version := n1, unity_web_minimum_revision := n2,
                  size := endianVal true b2,
                  compressed_blocks_info_size := endianVal true b3,
                  uncompressed_blocks_info_size := endianVal true b4,
                  flags := endianVal true b5,
                  header_size :=
                    0 + (sig.length + 1) + 4 + (n1.length + 1) + (n2.length + 1) + 8 + 4 + 4 + 4 - 0 },
            { data := data,
              pos := 0 + (sig.length + 1) + 4 + (n1.length + 1) + (n2.length + 1) + 8 + 4 + 4 + 4,
              endian := true, read_limit := 0,
              read_count := 0 + (sig.length + 1) + 4 + (n1.length + 1) + (n2.length + 1) + 8 + 4 + 4 + 4 })
        else none
      else none) := by
  have d0 : data.drop 0 =
      sig ++ 0 :: (b1 ++ (n1 ++ (0 :: (n2 ++ (0 :: (b2 ++ (b3 ++ (b4 ++ (b5 ++ rest))))))))) := by
    rw [hdata]
    simp only [List.drop_zero, List.append_assoc, List.singleton_append, List.cons_append, List.nil_append]
  have h1 := read_string_layout data sig
    (b1 ++ (n1 ++ (0 :: (n2 ++ (0 :: (b2 ++ (b3 ++ (b4 ++ (b5 ++ rest)))))))))
    0 0 true d0 hs0 hsv
  have d1 : data.drop (0 + (sig.length + 1)) =
      b1 ++ (n1 ++ (0 :: (n2 ++ (0 :: (b2 ++ (b3 ++ (b4 ++ (b5 ++ rest)))))))) := by
    refine drop_chunk data (sig ++ [0]) _ 0 (sig.length + 1) ?_ (by simp)
    rw [d0]
    simp [List.append_assoc]
  have h2 := read_sint32_layout data b1
    (n1 ++ (0 :: (n2 ++ (0 :: (b2 ++ (b3 ++ (b4 ++ (b5 ++ rest))))))))
    (0 + (sig.length + 1)) (0 + (sig.length + 1)) true d1 hb1
  have d2 : data.drop (0 + (sig.length + 1) + 4) =
      n1 ++ 0 :: (n2 ++ (0 :: (b2 ++ (b3 ++ (b4 ++ (b5 ++ rest)))))) := by
    have := drop_chunk data b1 _ (0 + (sig.length + 1)) 4 d1 hb1
    rw [this]
  have h3 := read_string_layout data n1
    (n2 ++ (0 :: (b2 ++ (b3 ++ (b4 ++ (b5 ++ rest))))))
    (0 + (sig.length + 1) + 4) (0 + (sig.length + 1) + 4) true d2 hn10 hn1v
  have d3 : data.drop (0 + (sig.length + 1) + 4 + (n1.length + 1)) =
      n2 ++ 0 :: (b2 ++ (b3 ++ (b4 ++ (b5 ++ rest)))) := by
    refine drop_chunk data (n1 ++ [0]) _ (0 + (sig.length + 1) + 4) (n1.length + 1) ?_ (by simp)
    rw [d2]
    simp [List.append_assoc]
  have h4 := read_string_layout data n2
    (b2 ++ (b3 ++ (b4 ++ (b5 ++ rest))))
    (0 + (sig.length + 1) + 4 + (n1.length + 1)) (0 + (sig.length + 1) + 4 + (n1.length + 1))
    true d3 hn20 hn2v
  have d4 : data.drop (0 + (sig.length + 1) + 4 + (n1.length + 1) + (n2.length + 1)) =
      b2 ++ (b3 ++ (b4 ++ (b5 ++ rest))) := by
    refine drop_chunk data (n2 ++ [0]) _ (0 + (sig.length + 1) + 4 + (n1.length + 1))
      (n2.length + 1) ?_ (by simp)
    rw [d3]
    simp [List.append_assoc]
  have h5 := read_uint64_layout data b2 (b3 ++ (b4 ++ (b5 ++ rest)))
    (0 + (sig.length + 1) + 4 + (n1.length + 1) + (n2.length + 1))
    (0 + (sig.length + 1) + 4 + (n1.length + 1) + (n2.length + 1)) true d4 hb2
  have d5 : data.drop (0 + (sig.length + 1) + 4 + (n1.length + 1) + (n2.length + 1) + 8) =
      b3 ++ (b4 ++ (b5 ++ rest)) :=
    drop_chunk data b2 _ _ 8 d4 hb2
  have h6 := read_uint32_layout data b3 (b4 ++ (b5 ++ rest))
    (0 + (sig.length + 1) + 4 + (n1.length + 1) + (n2.length + 1) + 8)
    (0 + (sig.length + 1) + 4 + (n1.length + 1) + (n2.length + 1) + 8) true d5 hb3
  have d6 : data.drop (0 + (sig.length + 1) + 4 + (n1.length + 1) + (n2.length + 1) + 8 + 4) =
      b4 ++ (b5 ++ rest) :=
    drop_chunk data b3 _ _ 4 d5 hb3
  have h7 := read_uint32_layout data b4 (b5 ++ rest)
    (0 + (sig.length + 1) + 4 + (n1.length + 1) + (n2.length + 1) + 8 + 4)
    (0 + (sig.length + 1) + 4 + (n1.length + 1) + (n2.length + 1) + 8 + 4) true d6 hb4
  have d7 : data.drop (0 + (sig.length + 1) + 4 + (n1.length + 1) + (n2.length + 1) + 8 + 4 + 4) =
      b5 ++ rest :=
    drop_chunk data b4 _ _ 4 d6 hb4
  have h8 := read_uint32_layout data b5 rest
    (0 + (sig.length + 1) + 4 + (n1.length + 1) + (n2.length + 1) + 8 + 4 + 4)
    (0 + (sig.length + 1) + 4 + (n1.length + 1) + (n2.length + 1) + 8 + 4 + 4) true d7 hb5
  simp only [ArchiveStorageHeader.decode, h1, h2, h3, h4, h5, h6, h7, h8]

/-- C7 counterexample: a header whose signature is UnityFS and whose
version is 6 (not 5), but whose compressed blocks-info size equals the
uncompressed one: decode raises on its size assert, so parsing can fail
even with a good signature and version. -/
theorem C7_size_assert_rejects :
    ArchiveStorageHeader.decode
      { data := [85, 110, 105, 116, 121, 70, 83, 0, 0, 0, 0, 6, 0, 0,
                 0, 0, 0, 0, 0, 0, 0, 0, 0, 0, 0, 0, 0, 0, 0, 0, 0, 0, 0, 0],
        pos := 0, endian := true, read_limit := 0, read_count := 0 } = none ∧
    ([85, 110, 105, 116, 121, 70, 83] : List Nat) = str_UnityFS ∧
    toSigned 32 (endianVal true [0, 0, 0, 6]) = 6 ∧ (6 : Int) ≠ 5 := by
  refine ⟨?_, by decide, by decide, by decide⟩
  rw [archive_decode_layout
    [85, 110, 105, 116, 121, 70, 83, 0, 0, 0, 0, 6, 0, 0,
     0, 0, 0, 0, 0, 0, 0, 0, 0, 0, 0, 0, 0, 0, 0, 0, 0, 0, 0, 0]
    [85, 110, 105, 116, 121, 70, 83] [] [] [0, 0, 0, 6] [0, 0, 0, 0, 0, 0, 0, 0]
    [0, 0, 0, 0] [0, 0, 0, 0] [0, 0, 0, 0] []
    (by decide) (by decide) (by decide) (by decide) (by decide) (by decide) (by decide)
    (by decide) (by decide) (by decide) (by decide) (by decide)]
  decide

/-- C7 amended: over a stream laid out as the header wire format (valid
version strings included), archive-header parsing succeeds exactly when
the signature is UnityFS, the version is not 5, AND the compressed
blocks-info size is strictly below the uncompressed one — the source
carries a third assert beyond signature and version. -/
theorem C7_archive_accept_iff (data sig n1 n2 b1 b2 b3 b4 b5 rest : List Nat)
    (hdata : data = sig ++ [0] ++ b1 ++ n1 ++ [0] ++ n2 ++ [0] ++ b2 ++ b3 ++ b4 ++ b5 ++ rest)
    (hs0 : (0 : Nat) ∉ sig) (hsv : utf8ValidB sig = true)
    (hn10 : (0 : Nat) ∉ n1) (hn1v : utf8ValidB n1 = true)
    (hn20 : (0 : Nat) ∉ n2) (hn2v : utf8ValidB n2 = true)
    (hb1 : b1.length = 4) (hb2 : b2.length = 8) (hb3 : b3.length = 4)
    (hb4 : b4.length = 4) (hb5 : b5.length = 4) :
    (ArchiveStorageHeader.decode
      { data := data, pos := 0, endian := true, read_limit := 0, read_count := 0 }).isSome = true ↔
      (sig = str_UnityFS ∧ toSigned 32 (endianVal true b1) ≠ 5 ∧
        endianVal true b3 < endianVal true b4) := by
  rw [archive_decode_layout data sig n1 n2 b1 b2 b3 b4 b5 rest hdata hs0 hsv hn10 hn1v
    hn20 hn2v hb1 hb2 hb3 hb4 hb5]
  by_cases h1 : sig = str_UnityFS
  · rw [if_pos h1]
    by_cases h2 : toSigned 32 (endianVal true b1) = 5
    · rw [if_pos h2]
      simp [h1, h2]
    · rw [if_neg h2]
      by_cases h3 : endianVal true b3 < endianVal true b4
      · rw [if_pos h3]
        simp [h1, h2, h3]
      · rw [if_neg h3]
        simp [h1, h2, h3]
  · rw [if_neg h1]
    simp [h1]

/-- C7 witness: the amended characterization at a concrete accepted
header (version 6, sizes 1 < 2). -/
theorem C7_archive_accept_iff_witness :
    ((ArchiveStorageHeader.decode
      { data := [85, 110, 105, 116, 121, 70, 83, 0, 0, 0, 0, 6, 0, 0,
                 0, 0, 0, 0, 0, 0, 0, 0, 0, 0, 0, 1, 0, 0, 0, 2, 0, 0, 0, 0],
        pos := 0, endian := true, read_limit := 0, read_count := 0 }).isSome = true ↔
      (([85, 110, 105, 116, 121, 70, 83] : List Nat) = str_UnityFS ∧
        toSigned 32 (endianVal true [0, 0, 0, 6]) ≠ 5 ∧
        endianVal true [0, 0, 0, 1] < endianVal true [0, 0, 0, 2])) :=
  C7_archive_accept_iff
    [85, 110, 105, 116, 121, 70, 83, 0, 0, 0, 0, 6, 0, 0,
     0, 0, 0, 0, 0, 0, 0, 0, 0, 0, 0, 1, 0, 0, 0, 2, 0, 0, 0, 0]
    [85, 110, 105, 116, 121, 70, 83] [] [] [0, 0, 0, 6] [0, 0, 0, 0, 0, 0, 0, 0]
    [0, 0, 0, 1] [0, 0, 0, 2] [0, 0, 0, 0] []
    (by decide) (by decide) (by decide) (by decide) (by decide) (by decide) (by decide)
    (by decide) (by decide) (by decide) (by decide) (by decide)

/-- C3 counterexample: the program decodes archive headers on a fresh
FileStream, whose constructor defaults the endian to big; the version
bytes 00 00 00 06 decode to 6, whereas a little-endian reading of those
bytes would give 100663296 — the header is NOT read little-endian. -/
theorem C3_archive_header_is_big_endian :
    FileStream.mkNew [85, 110, 105, 116, 121, 70, 83, 0, 0, 0, 0, 6, 0, 0,
                      0, 0, 0, 0, 0, 0, 0, 0, 0, 0, 0, 1, 0, 0, 0, 2, 0, 0, 0, 0] =
      { data := [85, 110, 105, 116, 121, 70, 83, 0, 0, 0, 0, 6, 0, 0,
                 0, 0, 0, 0, 0, 0, 0, 0, 0, 0, 0, 1, 0, 0, 0, 2, 0, 0, 0, 0],
        pos := 0, endian := true, read_limit := 0, read_count := 0 } ∧
    ((ArchiveStorageHeader.decode
      { data := [85, 110, 105, 116, 121, 70, 83, 0, 0, 0, 0, 6, 0, 0,
                 0, 0, 0, 0, 0, 0, 0, 0, 0, 0, 0, 1, 0, 0, 0, 2, 0, 0, 0, 0],
        pos := 0, endian := true, read_limit := 0, read_count := 0 }).map
      (fun p => p.1.version) = some 6) ∧
    toSigned 32 (leVal [0, 0, 0, 6]) = 100663296 ∧ (100663296 : Int) ≠ 6 := by
  refine ⟨rfl, ?_, by decide, by decide⟩
  rw [archive_decode_layout
    [85, 110, 105, 116, 121, 70, 83, 0, 0, 0, 0, 6, 0, 0,
     0, 0, 0, 0, 0, 0, 0, 0, 0, 0, 0, 1, 0, 0, 0, 2, 0, 0, 0, 0]
    [85, 110, 105, 116, 121, 70, 83] [] [] [0, 0, 0, 6] [0, 0, 0, 0, 0, 0, 0, 0]
    [0, 0, 0, 1] [0, 0, 0, 2] [0, 0, 0, 0] []
    (by decide) (by decide) (by decide) (by decide) (by decide) (by decide) (by decide)
    (by decide) (by decide) (by decide) (by decide) (by decide)]
  decide

/-- C3 amended: the archive header and the pre-switch serialized-file
header fields are read with the stream's endianness at entry, which in
this program is big ('>', the FileStream constructor default, also set
by the caller before serialized-file decode) — not little-endian; only
the endianess flag controls the endianness of subsequent typed reads
(big when nonzero, little otherwise), and the pre-switch values depend
only on their own bytes and the entry endianness. -/
theorem C3_pre_switch_reads_use_entry_endian :
    (∀ (data sig n1 n2 b1 b2 b3 b4 b5 rest : List Nat),
      data = sig ++ [0] ++ b1 ++ n1 ++ [0] ++ n2 ++ [0] ++ b2 ++ b3 ++ b4 ++ b5 ++ rest →
      (0 : Nat) ∉ sig → utf8ValidB sig = true →
      (0 : Nat) ∉ n1 → utf8ValidB n1 = true →
      (0 : Nat) ∉ n2 → utf8ValidB n2 = true →
      b1.length = 4 → b2.length = 8 → b3.length = 4 → b4.length = 4 → b5.length = 4 →
      sig = str_UnityFS → toSigned 32 (endianVal true b1) ≠ 5 →
      endianVal true b3 < endianVal true b4 →
      ∃ hdr fs', ArchiveStorageHeader.decode (FileStream.mkNew data) = some (hdr, fs') ∧
        hdr.version = toSigned 32 (endianVal true b1) ∧
        hdr.size = endianVal true b2 ∧
        hdr.compressed_blocks_info_size = endianVal true b3 ∧
        hdr.uncompressed_blocks_info_size = endianVal true b4 ∧
        hdr.flags = endianVal true b5) ∧
    (∀ (node : FileNode) (fs fs' : FileStream) (hdr : SerializeFileHeader),
      fs.endian = true →
      SerializedFile.decode_header node fs = some (hdr, fs') →
      hdr.metadata_size = toSigned 32 (endianVal true ((fs.data.drop node.offset).take 4)) ∧
      hdr.file_size = toSigned 32 (endianVal true ((fs.data.drop (node.offset + 4)).take 4)) ∧
      hdr.version = toSigned 32 (endianVal true ((fs.data.drop (node.offset + 4 + 4)).take 4)) ∧
      hdr.data_offset = toSigned 32 (endianVal true ((fs.data.drop (node.offset + 4 + 4 + 4)).take 4)) ∧
      hdr.endianess = (((fs.data.drop (node.offset + 4 + 4 + 4 + 4)).take 1).headD 0 != 0) ∧
      fs'.endian = hdr.endianess) := by
  constructor
  · intro data sig n1 n2 b1 b2 b3 b4 b5 rest hdata hs0 hsv hn10 hn1v hn20 hn2v
      hb1 hb2 hb3 hb4 hb5 hsig hv5 hcmp
    refine ⟨{ signature := sig, version := toSigned 32 (endianVal true b1),
              unity_web_bundle_version := n1, unity_web_minimum_revision := n2,
              size := endianVal true b2,
              compressed_blocks_info_size := endianVal true b3,
              uncompressed_blocks_info_size := endianVal true b4,
              flags := endianVal true b5,
              header_size :=
                0 + (sig.length + 1) + 4 + (n1.length + 1) + (n2.length + 1) + 8 + 4 + 4 + 4 - 0 },
      { data := data,
        pos := 0 + (sig.length + 1) + 4 + (n1.length + 1) + (n2.length + 1) + 8 + 4 + 4 + 4,
        endian := true, read_limit := 0,
        read_count := 0 + (sig.length + 1) + 4 + (n1.length + 1) + (n2.length + 1) + 8 + 4 + 4 + 4 },
      ?_, rfl, rfl, rfl, rfl, rfl⟩
    rw [show FileStream.mkNew data =
      { data := data, pos := 0, endian := true, read_limit := 0, read_count := 0 } from rfl]
    rw [archive_decode_layout data sig n1 n2 b1 b2 b3 b4 b5 rest hdata hs0 hsv hn10 hn1v
      hn20 hn2v hb1 hb2 hb3 hb4 hb5]
    rw [if_pos hsig, if_neg hv5, if_pos hcmp]
  · intro node fs fs' hdr hbig h
    unfold SerializedFile.decode_header at h
    have hse : (fs.seek node.offset).endian = fs.endian := rfl
    have hsp : (fs.seek node.offset).pos = node.offset := rfl
    have hsd : (fs.seek node.offset).data = fs.data := rfl
    split at h
    · exact absurd h (by simp)
    · rename_i v1 fs1 h1
      split at h
      · exact absurd h (by simp)
      · rename_i v2 fs2 h2
        split at h
        · split at h
          · exact absurd h (by simp)
          · rename_i v3 fs3 h3
            split at h
            · exact absurd h (by simp)
            · rename_i v4 fs4 h4
              split at h
              · exact absurd h (by simp)
              · rename_i v5 fs5 h5
                split at h
                · exact absurd h (by simp)
                · rename_i v6 fs6 h6
                  injection h with h7
                  injection h7 with hhdr hfs'
                  obtain ⟨hv1, hfs1⟩ := FileStream.read_sint32_spec _ v1 fs1 h1
                  have e1p : fs1.pos = node.offset + 4 := by rw [hfs1]; rfl
                  have e1d : fs1.data = fs.data := by rw [hfs1]; rfl
                  have e1e : fs1.endian = fs.endian := by rw [hfs1]; rfl
                  obtain ⟨hv2, hfs2⟩ := FileStream.read_sint32_spec _ v2 fs2 h2
                  have e2p : fs2.pos = node.offset + 4 + 4 := by rw [hfs2]; simp only; rw [e1p]
                  have e2d : fs2.data = fs.data := by rw [hfs2]; simp only; rw [e1d]
                  have e2e : fs2.endian = fs.endian := by rw [hfs2]; simp only; rw [e1e]
                  obtain ⟨hv3, hfs3⟩ := FileStream.read_sint32_spec _ v3 fs3 h3
                  have e3p : fs3.pos = node.offset + 4 + 4 + 4 := by rw [hfs3]; simp only; rw [e2p]
                  have e3d : fs3.data = fs.data := by rw [hfs3]; simp only; rw [e2d]
                  have e3e : fs3.endian = fs.endian := by rw [hfs3]; simp only; rw [e2e]
                  obtain ⟨hv4, hfs4⟩ := FileStream.read_sint32_spec _ v4 fs4 h4
                  have e4p : fs4.pos = node.offset + 4 + 4 + 4 + 4 := by rw [hfs4]; simp only; rw [e3p]
                  have e4d : fs4.data = fs.data := by rw [hfs4]; simp only; rw [e3d]
                  obtain ⟨hv5b, hfs5⟩ := FileStream.read_boolean_spec _ v5 fs5 h5
                  obtain ⟨hc6, _, hfs6⟩ := FileStream.read_spec _ 3 v6 fs6 h6
                  refine ⟨?_, ?_, ?_, ?_, ?_, ?_⟩
                  · rw [← hhdr]
                    simp only
                    rw [hv1, hse, hbig, hsp, hsd]
                  · rw [← hhdr]
                    simp only
                    rw [hv2, e1e, hbig, e1p, e1d]
                  · rw [← hhdr]
                    simp only
                    rw [hv3, e2e, hbig, e2p, e2d]
                  · rw [← hhdr]
                    simp only
                    rw [hv4, e3e, hbig, e3p, e3d]
                  · rw [← hhdr]
                    simp only
                    rw [hv5b, e4p, e4d]
                  · rw [← hfs', ← hhdr]
        · exact absurd h (by simp)

/-- C3 witness: the amended statement applied at a concrete accepted
archive header and at a concrete serialized-file header whose fields
read back big-endian. -/
theorem C3_pre_switch_reads_use_entry_endian_witness :
    (∃ hdr fs', ArchiveStorageHeader.decode
        (FileStream.mkNew [85, 110, 105, 116, 121, 70, 83, 0, 0, 0, 0, 6, 0, 0,
                           0, 0, 0, 0, 0, 0, 0, 0, 0, 0, 0, 1, 0, 0, 0, 2, 0, 0, 0, 0]) =
        some (hdr, fs') ∧
      hdr.version = toSigned 32 (endianVal true [0, 0, 0, 6]) ∧
      hdr.size = endianVal true [0, 0, 0, 0, 0, 0, 0, 0] ∧
      hdr.compressed_blocks_info_size = endianVal true [0, 0, 0, 1] ∧
      hdr.uncompressed_blocks_info_size = endianVal true [0, 0, 0, 2] ∧
      hdr.flags = endianVal true [0, 0, 0, 0]) ∧
    ({ metadata_size := 32, file_size := 64, version := 17, data_offset := 48,
       endianess := true : SerializeFileHeader }.metadata_size =
        toSigned 32 (endianVal true ((([0, 0, 0, 32, 0, 0, 0, 64, 0, 0, 0, 17, 0, 0, 0, 48,
          1, 0, 0, 0, 9, 9] : List Nat).drop 0).take 4)) ∧
     ({ metadata_size := 32, file_size := 64, version := 17, data_offset := 48,
        endianess := true : SerializeFileHeader }.file_size =
        toSigned 32 (endianVal true ((([0, 0, 0, 32, 0, 0, 0, 64, 0, 0, 0, 17, 0, 0, 0, 48,
          1, 0, 0, 0, 9, 9] : List Nat).drop (0 + 4)).take 4))) ∧
     ({ metadata_size := 32, file_size := 64, version := 17, data_offset := 48,
        endianess := true : SerializeFileHeader }.version =
        toSigned 32 (endianVal true ((([0, 0, 0, 32, 0, 0, 0, 64, 0, 0, 0, 17, 0, 0, 0, 48,
          1, 0, 0, 0, 9, 9] : List Nat).drop (0 + 4 + 4)).take 4))) ∧
     ({ metadata_size := 32, file_size := 64, version := 17, data_offset := 48,
        endianess := true : SerializeFileHeader }.data_offset =
        toSigned 32 (endianVal true ((([0, 0, 0, 32, 0, 0, 0, 64, 0, 0, 0, 17, 0, 0, 0, 48,
          1, 0, 0, 0, 9, 9] : List Nat).drop (0 + 4 + 4 + 4)).take 4))) ∧
     ({ metadata_size := 32, file_size := 64, version := 17, data_offset := 48,
        endianess := true : SerializeFileHeader }.endianess =
        (((([0, 0, 0, 32, 0, 0, 0, 64, 0, 0, 0, 17, 0, 0, 0, 48,
          1, 0, 0, 0, 9, 9] : List Nat).drop (0 + 4 + 4 + 4 + 4)).take 1).headD 0 != 0)) ∧
     ({ data := [0, 0, 0, 32, 0, 0, 0, 64, 0, 0, 0, 17, 0, 0, 0, 48, 1, 0, 0, 0, 9, 9],
        pos := 20, endian := true, read_limit := 0, read_count := 19 : FileStream }.endian =
        { metadata_size := 32, file_size := 64, version := 17, data_offset := 48,
          endianess := true : SerializeFileHeader }.endianess)) :=
  ⟨C3_pre_switch_reads_use_entry_endian.1
      [85, 110, 105, 116, 121, 70, 83, 0, 0, 0, 0, 6, 0, 0,
       0, 0, 0, 0, 0, 0, 0, 0, 0, 0, 0, 1, 0, 0, 0, 2, 0, 0, 0, 0]
      [85, 110, 105, 116, 121, 70, 83] [] [] [0, 0, 0, 6] [0, 0, 0, 0, 0, 0, 0, 0]
      [0, 0, 0, 1] [0, 0, 0, 2] [0, 0, 0, 0] []
      (by decide) (by decide) (by decide) (by decide) (by decide) (by decide) (by decide)
      (by decide) (by decide) (by decide) (by decide) (by decide)
      (by decide) (by decide) (by decide),
   C3_pre_switch_reads_use_entry_endian.2
      { offset := 0, size := 64 }
      { data := [0, 0, 0, 32, 0, 0, 0, 64, 0, 0, 0, 17, 0, 0, 0, 48, 1, 0, 0, 0, 9, 9],
        pos := 0, endian := true, read_limit := 0, read_count := 0 }
      { data := [0, 0, 0, 32, 0, 0, 0, 64, 0, 0, 0, 17, 0, 0, 0, 48, 1, 0, 0, 0, 9, 9],
        pos := 20, endian := true, read_limit := 0, read_count := 19 }
      { metadata_size := 32, file_size := 64, version := 17, data_offset := 48,
        endianess := true }
      rfl rfl⟩

/-! Claim C8: the object-size round-trip assert in dump. -/

/-- C8: for an object whose type tree has a class view registered at
key 0, dump succeeds past that object only if deserialize, started at
node.offset + data_offset + byte_start, advances the stream by exactly
byte_size; when the advance differs, the assert fires and dump returns
failure without continuing to later objects. -/
theorem C8_dump_size_roundtrip (fuel : Nat) (sf : DumpSF) (o : ObjectInfo)
    (rest : List ObjectInfo) (fs fs' : FileStream)
    (tree : MetadataTypeTree) (mt : MetadataType) (res : PyDict)
    (htarget : ¬ ((sf.node_offset : Int) + sf.data_offset + (o.byte_start : Int) < 0))
    (htree : sf.type_trees.get? o.type_id = some tree)
    (hne : tree.type_dict.isEmpty = false)
    (hmt : dictGet tree.type_dict 0 = some mt)
    (hdes : SerializedFile.deserialize fuel
      { nodes := tree.nodes, type_dict := tree.type_dict } mt
      (fs.seek ((sf.node_offset : Int) + sf.data_offset + (o.byte_start : Int)).toNat) =
      some (res, fs')) :
    (∀ out, SerializedFile.dump_loop fuel sf (o :: rest) fs = some out →
      (fs'.pos : Int) -
        ((((sf.node_offset : Int) + sf.data_offset + (o.byte_start : Int)).toNat : Nat) : Int) =
        (o.byte_size : Int)) ∧
    ((fs'.pos : Int) -
        ((((sf.node_offset : Int) + sf.data_offset + (o.byte_start : Int)).toNat : Nat) : Int) ≠
        (o.byte_size : Int) →
      SerializedFile.dump_loop fuel sf (o :: rest) fs = none) := by
  have hsp : (fs.seek ((sf.node_offset : Int) + sf.data_offset + (o.byte_start : Int)).toNat).pos =
      ((sf.node_offset : Int) + sf.data_offset + (o.byte_start : Int)).toNat := rfl
  have hstep : SerializedFile.dump_loop fuel sf (o :: rest) fs =
      (if (fs'.pos : Int) -
          ((((sf.node_offset : Int) + sf.data_offset + (o.byte_start : Int)).toNat : Nat) : Int) =
          (o.byte_size : Int) then
        SerializedFile.dump_loop fuel sf rest fs'
      else none) := by
    simp only [SerializedFile.dump_loop]
    rw [if_neg htarget, htree]
    simp only
    rw [hne]
    simp only [Bool.false_eq_true, if_false]
    rw [hmt]
    simp only
    rw [hdes]
    simp only
    rw [hsp]
  rw [hstep]
  constructor
  · intro out hout
    by_contra hneq
    rw [if_neg hneq] at hout
    exact absurd hout (by simp)
  · intro hneq
    rw [if_neg hneq]

/-- C8 witness: a concrete one-object dump whose single int field
consumes exactly the object's 4 declared bytes. -/
theorem C8_dump_size_roundtrip_witness :
    ((∀ out, SerializedFile.dump_loop 2 { node_offset := 0, data_offset := 0, type_trees := [{ persistent_type_id := -1, is_stripped_type := false, script_type_index := -1, script_type_hash := [], type_hash := [], nodes := [], strings := [], type_tree_enabled := false, type_dict := [((0 : Int), { name := [82], index := 0, fields := [{ version := 0, level := 1, is_array := false, type := str_int, type_str_offset := 0, name := [120], name_str_offset := 0, byte_size := 4, index := 1, meta_flags := 0 }] })], name := [] }] } [{ local_identifier_in_file := -1, byte_start := 0, byte_size := 4, type_id := 0 }] { data := [1, 0, 0, 0], pos := 0, endian := true, read_limit := 0, read_count := 0 } = some out →
      ((4 : Nat) : Int) - ((((((0 : Nat) : Int) + 0 + ((0 : Nat) : Int)).toNat : Nat)) : Int) = ((4 : Nat) : Int)) ∧
    (((4 : Nat) : Int) - ((((((0 : Nat) : Int) + 0 + ((0 : Nat) : Int)).toNat : Nat)) : Int) ≠ ((4 : Nat) : Int) →
      SerializedFile.dump_loop 2 { node_offset := 0, data_offset := 0, type_trees := [{ persistent_type_id := -1, is_stripped_type := false, script_type_index := -1, script_type_hash := [], type_hash := [], nodes := [], strings := [], type_tree_enabled := false, type_dict := [((0 : Int), { name := [82], index := 0, fields := [{ version := 0, level := 1, is_array := false, type := str_int, type_str_offset := 0, name := [120], name_str_offset := 0, byte_size := 4, index := 1, meta_flags := 0 }] })], name := [] }] } [{ local_identifier_in_file := -1, byte_start := 0, byte_size := 4, type_id := 0 }] { data := [1, 0, 0, 0], pos := 0, endian := true, read_limit := 0, read_count := 0 } = none)) :=
  C8_dump_size_roundtrip 2 { node_offset := 0, data_offset := 0, type_trees := [{ persistent_type_id := -1, is_stripped_type := false, script_type_index := -1, script_type_hash := [], type_hash := [], nodes := [], strings := [], type_tree_enabled := false, type_dict := [((0 : Int), { name := [82], index := 0, fields := [{ version := 0, level := 1, is_array := false, type := str_int, type_str_offset := 0, name := [120], name_str_offset := 0, byte_size := 4, index := 1, meta_flags := 0 }] })], name := [] }] } { local_identifier_in_file := -1, byte_start := 0, byte_size := 4, type_id := 0 } [] { data := [1, 0, 0, 0], pos := 0, endian := true, read_limit := 0, read_count := 0 } { data := [1, 0, 0, 0], pos := 4, endian := true, read_limit := 0, read_count := 4 } { persistent_type_id := -1, is_stripped_type := false, script_type_index := -1, script_type_hash := [], type_hash := [], nodes := [], strings := [], type_tree_enabled := false, type_dict := [((0 : Int), { name := [82], index := 0, fields := [{ version := 0, level := 1, is_array := false, type := str_int, type_str_offset := 0, name := [120], name_str_offset := 0, byte_size := 4, index := 1, meta_flags := 0 }] })], name := [] } { name := [82], index := 0, fields := [{ version := 0, level := 1, is_array := false, type := str_int, type_str_offset := 0, name := [120], name_str_offset := 0, byte_size := 4, index := 1, meta_flags := 0 }] }
    [([120], Value.vInt 16777216)]
    (by decide) rfl rfl rfl rfl
